import Mathlib

/-!
# Ansible event explainers and the package check of kismatic

A shallow embedding of

* `pkg/install/explain/updating.go`: `rightPadToLen`, `updatingExplainer`,
  `playCountIndicator`, `ExplainEvent`;
* `pkg/install/explain/default.go`: `DefaultEventExplainer`, `getCount`,
  `writePlayStatus`, `writePlayStatusVerbose`, `ExplainEvent`;
* `pkg/install/explain/ansible_event.go`: `AnsibleEventStreamExplainer.Explain`;
* `pkg/inspector/check/package.go`: `PackageCheck.Check`.

Conventions of the embedding.

* A Go `string` is a sequence of bytes. It is embedded as a list of characters,
  one list element per byte; every literal of the program is ASCII, so a literal
  is written `"text".toList`. `len` is `List.length`, `s[:n]` is `List.take n`.
* A Go `int` is embedded as `Int`. The only arithmetic on it is `currentPlay++`,
  once per `PlayStartEvent` (it stays in the 64-bit range on every stream of
  fewer than `2^63` events), and the arithmetic of `rightPadToLen`, whose
  out-of-range cases all end in a run-time panic (`none`).
* A run-time panic is `none`.
* The explainer writes through three collaborators that are not part of the
  embedded files: the `uilive` writer (a transient frame and a bypass channel),
  the `util` print functions (severity markers and colours) and Go's `fmt`.
  The embedding records, per channel, the sequence of print calls together with
  the text each call is given (`Piece`, `Output`); the bytes that reach the
  terminal are obtained from that record by `renderWrite`, for a given `Styler`.
-/

namespace Kismatic

/-- A Go string: its bytes, in order. -/
abbrev GoString := List Char

/-- Go `strings.Repeat(s, count)` for a count that is not negative. -/
def stringsRepeat (s : GoString) (count : Nat) : GoString :=
  (List.replicate count s).flatten

/-- The verb `%d` of Go's `fmt` applied to an `int`: decimal digits, with a
leading minus sign for a negative number. -/
def fmtInt : Int → GoString
  | Int.ofNat n => (Nat.repr n).toList
  | Int.negSucc n => '-' :: (Nat.repr (n + 1)).toList

/-- Go `fmt.Sprintf("%d/%d", a, b)`. -/
def sprintfCount (a b : Int) : GoString :=
  fmtInt a ++ '/' :: fmtInt b

/-- Go `fmt.Sprintln(a, b)` for two string operands: the operands separated by
a space, followed by a newline. -/
def sprintln2 (a b : GoString) : GoString :=
  a ++ ' ' :: b ++ ['\n']

/-- Source function `rightPadToLen` (updating.go 167-172, default.go 181-186).

    padCountInt = 1 + ((overallLen - len(padStr)) / len(padStr))
    var retStr = s + strings.Repeat(padStr, padCountInt)
    return retStr[:overallLen]

Go's integer division truncates toward zero (`Int.tdiv`). The function panics
when `padStr` is empty (integer divide by zero), when the repeat count is
negative (`strings.Repeat`), and when `overallLen` is negative or exceeds
`len(retStr)` (slice bounds out of range). -/
def rightPadToLen (s padStr : GoString) (overallLen : Int) : Option GoString :=
  if padStr.length = 0 then none
  else
    let padCountInt : Int := 1 + Int.tdiv (overallLen - padStr.length) padStr.length
    if padCountInt < 0 then none
    else
      let retStr := s ++ stringsRepeat padStr padCountInt.toNat
      if overallLen < 0 ∨ (retStr.length : Int) < overallLen then none
      else some (retStr.take overallLen.toNat)

/-! ## Events -/

/-- The fields of `ansible.RunnerResult` that the explainers read. -/
structure RunnerResult where
  Message : GoString
  Stdout : GoString
  Stderr : GoString
  Item : GoString
  Attempts : Int
  MaxRetries : Int
deriving DecidableEq

/-- The empty runner result (every field at its zero value). -/
def RunnerResult.zero : RunnerResult := ⟨[], [], [], [], 0, 0⟩

/-- The event types the type switch of `ExplainEvent` distinguishes, with the
fields it reads. `other typeName` stands for an event of any other type, whose
`%T` text is `typeName` (the `default` branch). -/
inductive Event where
  | playbookStart (Count : Int)
  | playStart (Name : GoString)
  | playbookEnd
  | taskStart (Name : GoString)
  | handlerTaskStart (Name : GoString)
  | runnerOK (Host : GoString)
  | runnerItemOK (Host : GoString) (Result : RunnerResult)
  | runnerFailed (Host : GoString) (IgnoreErrors : Bool) (Result : RunnerResult)
  | runnerUnreachable (Host : GoString)
  | runnerSkipped (Host : GoString)
  | runnerItemFailed (Host : GoString) (IgnoreErrors : Bool) (Result : RunnerResult)
  | runnerItemRetry (Host : GoString) (Result : RunnerResult)
  | other (typeName : GoString)
deriving DecidableEq

/-! ## What is written -/

/-- The severities of the `util.PrettyPrint...` family: `PrettyPrintOk`,
`PrettyPrintErr`, `PrettyPrintErrorIgnored`, `PrettyPrintSkipped`,
`PrettyPrintUnreachable`, and `neutral` for `util.PrettyPrint`, which prints the
message without a status. -/
inductive Severity where
  | ok | err | errorIgnored | skipped | unreach | neutral
deriving DecidableEq

/-- The colours passed to `util.PrintColor`. -/
inductive Color where
  | red | green | orange
deriving DecidableEq

/-- One print call.

* `plain text`: `fmt.Fprintln` / `fmt.Fprintf` with a constant format; `text`
  is the text written.
* `pretty sev msg`: `util.PrettyPrint<sev>(w, format, a...)` with a constant
  format whose operands are strings under `%s`; `msg` is the formatted message.
* `prettyf sev format`: `util.PrettyPrint<sev>(w, format)` where the format is a
  computed string and there are no operands.
* `color c msg`: `util.PrintColor(w, c, format, a...)` with a constant format;
  `msg` is the formatted message.
* `okln`: `util.PrintOkln(w)`, the OK status on a line of its own. -/
inductive Piece where
  | plain (text : GoString)
  | pretty (sev : Severity) (msg : GoString)
  | prettyf (sev : Severity) (format : GoString)
  | color (c : Color) (msg : GoString)
  | okln
deriving DecidableEq

/-- One write on a channel of the `uilive` writer.

* `print p`: a print call made on the channel itself.
* `bytes buf`: `w.Write(buf.Bytes())`, the content of a buffer filled by the
  print calls `buf`.
* `format buf`: `fmt.Fprintf(w, buf.String())`: the content of the buffer is
  passed as the format string, with no operands. -/
inductive Output where
  | print (p : Piece)
  | bytes (buf : List Piece)
  | format (buf : List Piece)
deriving DecidableEq

/-- The `uilive.Writer` of the explainer: what has been written to the writer
itself (the transient frame, each write replacing the frame before it) and to
`Bypass()` (durable lines), oldest first. -/
structure Writer where
  frames : List Output
  bypass : List Output
deriving DecidableEq

/-- A write on the writer itself (the transient frame). -/
def Writer.Write (w : Writer) (x : Output) : Writer :=
  { w with frames := w.frames ++ [x] }

/-- A write on `w.Bypass()`. -/
def Writer.Bypass (w : Writer) (x : Output) : Writer :=
  { w with bypass := w.bypass ++ [x] }

/-! ## The updating explainer -/

/-- Source struct `updatingExplainer` (updating.go 28-35). -/
structure updatingExplainer where
  out : Writer
  playCount : Int
  currentPlay : Int
  currentPlayName : GoString
  currentTask : GoString
  failureOccurred : Bool
deriving DecidableEq

/-- The explainer built by `DefaultExplainer(false, out)` (updating.go 23-25;
`UpdatingExplainer(out)` in default.go 15-22): `&updatingExplainer{out: w}`,
nothing written yet, every other field at its zero value. -/
def UpdatingExplainer : updatingExplainer :=
  { out := ⟨[], []⟩, playCount := 0, currentPlay := 0, currentPlayName := [],
    currentTask := [], failureOccurred := false }

namespace updatingExplainer

/-- Source method `playCountIndicator` (updating.go 37-39):
`rightPadToLen(fmt.Sprintf("%d/%d", e.currentPlay, e.playCount), ".", 7)`.
With the pad `"."` and the width 7 the call never panics
(`rightPadToLen_dot_seven`), so the alternative `[]` is never taken. -/
def playCountIndicator (e : updatingExplainer) : GoString :=
  (rightPadToLen (sprintfCount e.currentPlay e.playCount) ".".toList 7).getD []

/-- The message of `util.PrettyPrint...(w, "%s %s", e.playCountIndicator(),
e.currentPlayName)`. -/
def statusText (e : updatingExplainer) : GoString :=
  e.playCountIndicator ++ ' ' :: e.currentPlayName

/-- The first line of every frame: `fmt.Fprintln(buf, e.playCountIndicator(),
e.currentPlayName)`. -/
def headerLine (e : updatingExplainer) : Piece :=
  Piece.plain (sprintln2 e.playCountIndicator e.currentPlayName)

/-- The text `msg` built for an item event (updating.go 88-91, 135-138):
`"  " + Host`, followed by `fmt.Sprintf(" with %q", Item)` when the item is not
empty. `quote` is Go's `%q` on a string (`strconv.Quote`). -/
def itemMsg (quote : GoString → GoString) (host item : GoString) : GoString :=
  let msg := "  ".toList ++ host
  if item ≠ [] then msg ++ (" with ".toList ++ quote item) else msg

/-- The three `if` statements that close a failure block (updating.go 107-115,
144-152): the red STDOUT block, the red STDERR block, the red closing rule. -/
def outputBlocks (r : RunnerResult) : List Piece :=
  (if r.Stdout ≠ [] then
      [Piece.color Color.red ("---- STDOUT ----\n".toList ++ r.Stdout ++ "\n".toList)]
    else []) ++
  (if r.Stderr ≠ [] then
      [Piece.color Color.red ("---- STDERR ----\n".toList ++ r.Stderr ++ "\n".toList)]
    else []) ++
  (if r.Stderr ≠ [] ∨ r.Stdout ≠ [] then
      [Piece.color Color.red "---------------\n".toList]
    else [])

/-- The header of a failure block, written only for the first failure
(updating.go 98-101, 131-134). -/
def failureHeader (e : updatingExplainer) : List Piece :=
  if !e.failureOccurred then
    [Piece.pretty Severity.err e.statusText,
     Piece.plain ("- Task: ".toList ++ e.currentTask ++ "\n".toList)]
  else []

/-- Source method `ExplainEvent` (updating.go 41-165), one branch of the type
switch per constructor. `quote` is Go's `%q` on a string. The copy of the
method in default.go (37-162) has the same branches, statement for statement;
it takes a `verbose` argument it never reads and returns the empty string. -/
def ExplainEvent (quote : GoString → GoString) (e : updatingExplainer) :
    Event → updatingExplainer
  | Event.playbookStart count =>
    { e with playCount := count, currentPlay := 1 }
  | Event.playStart name =>
    let e1 :=
      if e.currentPlayName ≠ [] then
        { e with
          out := e.out.Bypass (Output.print (Piece.pretty Severity.ok e.statusText)),
          currentPlay := e.currentPlay + 1 }
      else e
    let e2 := { e1 with currentPlayName := name }
    { e2 with out := e2.out.Write (Output.print e2.headerLine) }
  | Event.playbookEnd =>
    if !e.failureOccurred then
      { e with out := e.out.Bypass (Output.print (Piece.pretty Severity.ok e.statusText)) }
    else e
  | Event.taskStart name =>
    let e1 := { e with currentTask := name }
    { e1 with out := e1.out.Write (Output.bytes
        [e1.headerLine, Piece.plain (sprintln2 "- Task:".toList e1.currentTask)]) }
  | Event.handlerTaskStart name =>
    if !e.failureOccurred then
      { e with out := e.out.Write (Output.bytes
          [e.headerLine, Piece.plain (sprintln2 "- Task: ".toList name)]) }
    else e
  | Event.runnerOK host =>
    { e with out := e.out.Write (Output.bytes
        [e.headerLine,
         Piece.pretty Severity.ok ("- ".toList ++ host ++ ' ' :: e.currentTask)]) }
  | Event.runnerItemOK host result =>
    { e with out := e.out.Write (Output.bytes
        [e.headerLine, Piece.prettyf Severity.ok (itemMsg quote host result.Item)]) }
  | Event.runnerFailed host ignoreErrors result =>
    let buf := e.failureHeader ++
      [if ignoreErrors then Piece.pretty Severity.errorIgnored ("  ".toList ++ host)
       else Piece.pretty Severity.err ("  ".toList ++ host ++ ": ".toList ++ result.Message)] ++
      outputBlocks result
    { e with out := e.out.Bypass (Output.format buf), failureOccurred := true }
  | Event.runnerUnreachable host =>
    let out1 := e.out.Bypass (Output.print e.headerLine)
    let line := Piece.pretty Severity.unreach ("  ".toList ++ host)
    { e with out := out1.Bypass (Output.print line) }
  | Event.runnerSkipped host =>
    { e with out := e.out.Write (Output.bytes
        [e.headerLine,
         Piece.pretty Severity.skipped ("- ".toList ++ host ++ ' ' :: e.currentTask)]) }
  | Event.runnerItemFailed host ignoreErrors result =>
    let msg := itemMsg quote host result.Item
    let buf := e.failureHeader ++
      [if ignoreErrors then Piece.prettyf Severity.errorIgnored msg
       else Piece.pretty Severity.err ("  ".toList ++ msg ++ ": ".toList ++ result.Message)] ++
      outputBlocks result
    { e with out := e.out.Bypass (Output.format buf), failureOccurred := true }
  | Event.runnerItemRetry host result =>
    { e with out := e.out.Write (Output.bytes
        [e.headerLine,
         Piece.plain ("- [".toList ++ host ++ "] Retrying: ".toList ++ e.currentTask ++
           " (".toList ++ fmtInt result.Attempts ++ '/' :: fmtInt result.MaxRetries ++
           " attempts)\n".toList)]) }
  | Event.other typeName =>
    let line := Piece.color Color.orange ("Unhandled event: ".toList ++ typeName ++ "\n".toList)
    { e with out := e.out.Bypass (Output.print line) }

/-- The explainer after a finite stream of events, each passed to `ExplainEvent`
in arrival order. -/
def ExplainAll (quote : GoString → GoString) (e : updatingExplainer)
    (events : List Event) : updatingExplainer :=
  events.foldl (ExplainEvent quote) e

end updatingExplainer

/-! ## The default explainer -/

/-- Source struct `DefaultEventExplainer` (default.go 165-175). -/
structure DefaultEventExplainer where
  printPlayMessage : Bool
  printPlayStatus : Bool
  lastPlay : GoString
  currentTask : GoString
  playCount : Int
  currentPlayCount : Int
deriving DecidableEq

namespace DefaultEventExplainer

/-- The zero value `DefaultEventExplainer{}`, the explainer before any event. -/
def zero : DefaultEventExplainer :=
  { printPlayMessage := false, printPlayStatus := false, lastPlay := [], currentTask := [],
    playCount := 0, currentPlayCount := 0 }

/-- Source method `getCount` (default.go 177-179):
`rightPadToLen(fmt.Sprintf("%d/%d", currentPlayCount, playCount), ".", 7)`.
With the pad `"."` and the width 7 the call never panics
(`rightPadToLen_dot_seven`), so the alternative `[]` is never taken. -/
def getCount (x : DefaultEventExplainer) : GoString :=
  (rightPadToLen (sprintfCount x.currentPlayCount x.playCount) ".".toList 7).getD []

/-- Source method `writePlayStatus` (default.go 188-194): what it prints to the
buffer. -/
def writePlayStatus (x : DefaultEventExplainer) : List Piece :=
  if x.printPlayStatus then [Piece.okln] else []

/-- Source method `writePlayStatusVerbose` (default.go 195-209): the explainer
after the call and what the call prints to the buffer. -/
def writePlayStatusVerbose (x : DefaultEventExplainer) : DefaultEventExplainer × List Piece :=
  if x.printPlayMessage then
    let printed :=
      if x.printPlayStatus then
        [Piece.plain "\n".toList,
         Piece.color Color.green (x.lastPlay ++ " Finished With No Tasks\n".toList)]
      else
        [Piece.color Color.green
          (x.getCount ++ "  ".toList ++ x.lastPlay ++ " Finished\n".toList)]
    ({ x with currentPlayCount := x.currentPlayCount + 1 }, printed)
  else (x, [])

/-- The statement that opens five branches of `ExplainEvent` (default.go
233-237, 259-263, 268-272, 280-284, 318-322):

    if explainer.printPlayStatus {
      fmt.Fprintln(buf)
      explainer.printPlayStatus = false
    } -/
def breakStatusLine (x : DefaultEventExplainer) : DefaultEventExplainer × List Piece :=
  if x.printPlayStatus then ({ x with printPlayStatus := false }, [Piece.plain "\n".toList])
  else (x, [])

/-- Source method `DefaultEventExplainer.ExplainEvent` (default.go 212-354), one
branch of the type switch per constructor: the explainer after the call and
the print calls whose text makes up the returned string. The three `if`
statements that close a failure block (default.go 247-255, 332-340) are those
of the updating explainer, `updatingExplainer.outputBlocks`. `quote` is Go's
`%q` on a string. -/
def ExplainEvent (quote : GoString → GoString) (x : DefaultEventExplainer) (e : Event)
    (verbose : Bool) : DefaultEventExplainer × List Piece :=
  match e with
  | Event.playStart name =>
    let r :=
      if verbose then
        let x1 := x.writePlayStatusVerbose.1
        (x1, x.writePlayStatusVerbose.2 ++
          [Piece.plain (x1.getCount ++ "  ".toList ++ name)])
      else
        let x1 := { x with currentPlayCount := x.currentPlayCount + 1 }
        (x1, x.writePlayStatus ++
          [Piece.pretty Severity.neutral (x.getCount ++ "  ".toList ++ name)])
    ({ r.1 with lastPlay := name, printPlayStatus := true, printPlayMessage := true }, r.2)
  | Event.runnerFailed host ignoreErrors result =>
    let x1 := x.breakStatusLine.1
    let task :=
      if !verbose then
        [Piece.plain ("- Running task: ".toList ++ x1.currentTask ++ "\n".toList)]
      else []
    let hostLine :=
      if ignoreErrors then Piece.pretty Severity.errorIgnored ("  ".toList ++ host)
      else Piece.pretty Severity.err ("  ".toList ++ host ++ " ".toList ++ result.Message)
    (x1, x.breakStatusLine.2 ++ task ++ [hostLine] ++ updatingExplainer.outputBlocks result)
  | Event.runnerUnreachable host =>
    (x.breakStatusLine.1,
      x.breakStatusLine.2 ++ [Piece.pretty Severity.unreach ("  ".toList ++ host)])
  | Event.taskStart name =>
    let r :=
      if verbose then
        (x.breakStatusLine.1, x.breakStatusLine.2 ++
          [Piece.plain ("- Running task: ".toList ++ name ++ "\n".toList)])
      else (x, [])
    ({ r.1 with currentTask := name }, r.2)
  | Event.handlerTaskStart name =>
    let r :=
      if verbose then
        (x.breakStatusLine.1, x.breakStatusLine.2 ++
          [Piece.plain ("- Running task: ".toList ++ name ++ "\n".toList)])
      else (x, [])
    ({ r.1 with currentTask := name }, r.2)
  | Event.playbookEnd =>
    if verbose then x.writePlayStatusVerbose else (x, x.writePlayStatus)
  | Event.runnerSkipped host =>
    (x, if verbose then [Piece.pretty Severity.skipped ("  ".toList ++ host)] else [])
  | Event.runnerOK host =>
    (x, if verbose then [Piece.pretty Severity.ok ("  ".toList ++ host)] else [])
  | Event.runnerItemOK host result =>
    let msg := updatingExplainer.itemMsg quote host result.Item
    (x, if verbose then [Piece.prettyf Severity.ok msg] else [])
  | Event.runnerItemFailed host ignoreErrors result =>
    let msg := updatingExplainer.itemMsg quote host result.Item
    let x1 := x.breakStatusLine.1
    let task :=
      if !verbose then [Piece.plain ("- Task: ".toList ++ x1.currentTask ++ "\n".toList)]
      else []
    let hostLine :=
      if ignoreErrors then Piece.prettyf Severity.errorIgnored msg
      else Piece.pretty Severity.err ("  ".toList ++ msg ++ " ".toList ++ result.Message)
    (x1, x.breakStatusLine.2 ++ task ++ [hostLine] ++ updatingExplainer.outputBlocks result)
  | Event.runnerItemRetry _ _ => (x, [])
  | Event.playbookStart count => ({ x with playCount := count, currentPlayCount := 1 }, [])
  | Event.other typeName =>
    (x, if verbose then
      [Piece.color Color.orange ("Unhandled event: ".toList ++ typeName ++ "\n".toList)]
    else [])

/-- The explainer after a finite stream of events, each passed to `ExplainEvent`
in arrival order with the same verbosity. -/
def ExplainAll (quote : GoString → GoString) (verbose : Bool) (x : DefaultEventExplainer)
    (events : List Event) : DefaultEventExplainer :=
  events.foldl (fun x e => (x.ExplainEvent quote e verbose).1) x

end DefaultEventExplainer

/-! ## From the record of print calls to bytes -/

/-- The decorating functions of package `util`, which is not among the embedded
files: `pretty sev msg` is the text `util.PrettyPrint<sev>` writes for the
formatted message `msg`, `color c msg` the text `util.PrintColor` writes. -/
structure Styler where
  pretty : Severity → GoString → GoString
  color : Color → GoString → GoString
  okln : GoString

/-- Modelled from the spec: the plain styler of package `util` (not among the
embedded files), which writes the severity marker as an ASCII prefix of the
line (`[OK] 1/2.... Prep`, `[ERR] 1/1.... P`) and no colour codes. -/
def plainStyler : Styler where
  pretty sev msg :=
    (match sev with
      | Severity.ok => "[OK] ".toList
      | Severity.err => "[ERR] ".toList
      | Severity.errorIgnored => "[ERR IGNORED] ".toList
      | Severity.skipped => "[SKIPPED] ".toList
      | Severity.unreach => "[UNREACHABLE] ".toList
      | Severity.neutral => []) ++ msg ++ ['\n']
  color _ msg := msg
  okln := "[OK]\n".toList

/-- The characters that, right after a `%`, start a flag, a width, a precision
or an argument index in a Go format string. -/
def startsDirectiveOption (c : Char) : Bool :=
  c = '#' || c = '0' || c = '+' || c = '-' || c = ' ' || c.isDigit ||
    c = '.' || c = '*' || c = '['

/-- Go `fmt.Sprintf(format)` with no operands, for the directives that consist
of `%` and a one-byte verb: text outside directives is copied, `%%` writes `%`,
`%` and a verb writes `%!verb(MISSING)`, a `%` that ends the format writes
`%!(NOVERB)`. A directive with flags, width, precision or argument index, or
with a verb outside ASCII, is outside this fragment (`none`). -/
def sprintf0 : GoString → Option GoString
  | [] => some []
  | [c] => if c = '%' then some "%!(NOVERB)".toList else some [c]
  | c :: v :: rest =>
    if c ≠ '%' then (sprintf0 (v :: rest)).map (c :: ·)
    else if v = '%' then (sprintf0 rest).map ('%' :: ·)
    else if startsDirectiveOption v || decide (128 ≤ v.toNat) then none
    else (sprintf0 rest).map (fun r => "%!".toList ++ v :: "(MISSING)".toList ++ r)

/-- The text one print call writes. -/
def renderPiece (sty : Styler) : Piece → Option GoString
  | Piece.plain text => some text
  | Piece.pretty sev msg => some (sty.pretty sev msg)
  | Piece.prettyf sev format => (sprintf0 format).map (sty.pretty sev)
  | Piece.color c msg => some (sty.color c msg)
  | Piece.okln => some sty.okln

/-- The content of a buffer after the print calls `buf`: their texts, one
after the other. -/
def renderBuf (sty : Styler) : List Piece → Option GoString
  | [] => some []
  | p :: rest =>
    (renderPiece sty p).bind fun a => (renderBuf sty rest).map fun b => a ++ b

/-- The bytes one write puts on its channel. For `format` the buffer content
goes through `fmt.Fprintf` as the format string. -/
def renderWrite (sty : Styler) : Output → Option GoString
  | Output.print p => renderPiece sty p
  | Output.bytes buf => renderBuf sty buf
  | Output.format buf => (renderBuf sty buf).bind sprintf0

/-! ## The stream driver -/

/-- Source struct `AnsibleEventStreamExplainer` (ansible_event.go 11-18). `Out`
is the state of the `io.Writer`, `EventExplainer` the state of the explainer
behind the interface `AnsibleEventExplainer`. -/
structure AnsibleEventStreamExplainer (ω σ : Type) where
  Out : ω
  Verbose : Bool
  EventExplainer : σ

/-- Source method `AnsibleEventStreamExplainer.Explain` (ansible_event.go
21-29), run on a stream that ends (the channel is closed after `events`).
`write` is the method `Write` of the `io.Writer`: the writer after the call and
the error it returns (`none` for `nil`); `fmt.Fprint(e.Out, exp)` makes one such
call and its results are not assigned. `explain` is the method `ExplainEvent`
of the interface. The results are the stream explainer after the loop and the
returned error. -/
def AnsibleEventStreamExplainer.Explain {ω σ : Type}
    (write : ω → GoString → ω × Option GoString)
    (explain : σ → Event → Bool → σ × GoString)
    (e : AnsibleEventStreamExplainer ω σ) (events : List Event) :
    AnsibleEventStreamExplainer ω σ × Option GoString :=
  (events.foldl
    (fun e event =>
      let exp := (explain e.EventExplainer event e.Verbose).2
      let e1 := { e with EventExplainer := (explain e.EventExplainer event e.Verbose).1 }
      if exp ≠ [] then { e1 with Out := (write e.Out exp).1 } else e1)
    e, none)

/-- The errors the writes of `Explain` return, in the order of the writes: the
results the loop discards. -/
def AnsibleEventStreamExplainer.writeErrors {ω σ : Type}
    (write : ω → GoString → ω × Option GoString)
    (explain : σ → Event → Bool → σ × GoString) :
    AnsibleEventStreamExplainer ω σ → List Event → List (Option GoString)
  | _, [] => []
  | e, event :: rest =>
    let exp := (explain e.EventExplainer event e.Verbose).2
    let e1 := { e with EventExplainer := (explain e.EventExplainer event e.Verbose).1 }
    if exp ≠ [] then
      (write e.Out exp).2 ::
        AnsibleEventStreamExplainer.writeErrors write explain
          { e1 with Out := (write e.Out exp).1 } rest
    else AnsibleEventStreamExplainer.writeErrors write explain e1 rest

/-- The string `DefaultEventExplainer.ExplainEvent` returns, `buf.String()`, for
a styler: the text of its print calls (empty where a computed format lies
outside the fragment of `sprintf0`). -/
def DefaultEventExplainer.ExplainString (quote : GoString → GoString) (sty : Styler)
    (x : DefaultEventExplainer) (e : Event) (verbose : Bool) :
    DefaultEventExplainer × GoString :=
  ((x.ExplainEvent quote e verbose).1, (renderBuf sty (x.ExplainEvent quote e verbose).2).getD [])

/-- A writer that stores nothing and fails every write with the same error. -/
def failingWriter (err : GoString) : Unit → GoString → Unit × Option GoString :=
  fun _ _ => ((), some err)

/-! ## Play-status lines on the bypass channel -/

/-- The two kinds of play-status line: the OK line and the error header. -/
inductive StatusKind where
  | ok | errHeader
deriving DecidableEq

/-- The play-status line a write on the bypass channel carries, if any, with
its message. An OK line is a `PrettyPrintOk` made on the channel (only the
`PlayStartEvent` and `PlaybookEndEvent` branches make one). An error header is
the `PrettyPrintErr` that opens a failure block and is followed by the
`- Task:` line; the block of a later failure opens with the host line, which
is followed by a colour block or by nothing. -/
def statusLine : Output → Option (StatusKind × GoString)
  | Output.print (Piece.pretty Severity.ok msg) => some (StatusKind.ok, msg)
  | Output.format (Piece.pretty Severity.err msg :: Piece.plain _ :: _) =>
    some (StatusKind.errHeader, msg)
  | _ => none

/-- The play-status lines of a channel, oldest first. -/
def statusLines (ws : List Output) : List (StatusKind × GoString) :=
  ws.filterMap statusLine

/-! ## Shapes of event streams -/

/-- The event is a `PlayStartEvent`. -/
def Event.isPlayStart : Event → Bool
  | Event.playStart _ => true
  | _ => false

/-- The event is a `PlaybookEndEvent`. -/
def Event.isPlaybookEnd : Event → Bool
  | Event.playbookEnd => true
  | _ => false

/-- The event is a `PlaybookStartEvent`. -/
def Event.isPlaybookStart : Event → Bool
  | Event.playbookStart _ => true
  | _ => false

/-- The event is a `RunnerFailedEvent` or a `RunnerItemFailedEvent`, ignored
or not. -/
def Event.isFailure : Event → Bool
  | Event.runnerFailed _ _ _ => true
  | Event.runnerItemFailed _ _ _ => true
  | _ => false

/-- The event is a `RunnerFailedEvent` or a `RunnerItemFailedEvent` whose
`IgnoreErrors` is false. -/
def Event.isNonIgnoredFailure : Event → Bool
  | Event.runnerFailed _ ignoreErrors _ => !ignoreErrors
  | Event.runnerItemFailed _ ignoreErrors _ => !ignoreErrors
  | _ => false

/-- The events that report progress without a failure: `TaskStart`,
`HandlerTaskStart`, `RunnerOK`, `RunnerItemOK`, `RunnerSkipped`,
`RunnerItemRetry`. -/
def Event.isProgress : Event → Bool
  | Event.taskStart _ => true
  | Event.handlerTaskStart _ => true
  | Event.runnerOK _ => true
  | Event.runnerItemOK _ _ => true
  | Event.runnerSkipped _ => true
  | Event.runnerItemRetry _ _ => true
  | _ => false

/-- The events that may occur inside a play: every event but `PlaybookStart`,
`PlayStart` and `PlaybookEnd`. -/
def Event.isInPlay (ev : Event) : Bool :=
  !ev.isPlaybookStart && !ev.isPlayStart && !ev.isPlaybookEnd

/-- The events that, in verbose mode, end the line of the play header before
the footer is due: `TaskStart`, `HandlerTaskStart`, `RunnerFailed`,
`RunnerItemFailed`, `RunnerUnreachable`. -/
def Event.breaksStatusLine : Event → Bool
  | Event.taskStart _ => true
  | Event.handlerTaskStart _ => true
  | Event.runnerFailed _ _ _ => true
  | Event.runnerItemFailed _ _ _ => true
  | Event.runnerUnreachable _ => true
  | _ => false

/-- The events `RunnerFailed`, `RunnerItemFailed` and `RunnerUnreachable`. -/
def Event.isProblem : Event → Bool
  | Event.runnerFailed _ _ _ => true
  | Event.runnerItemFailed _ _ _ => true
  | Event.runnerUnreachable _ => true
  | _ => false

/-- The events `RunnerOK`, `RunnerItemOK`, `RunnerSkipped` and
`RunnerItemRetry`. -/
def Event.isRunnerNote : Event → Bool
  | Event.runnerOK _ => true
  | Event.runnerItemOK _ _ => true
  | Event.runnerSkipped _ => true
  | Event.runnerItemRetry _ _ => true
  | _ => false

/-- The red STDOUT block of a failure block, in the words of the
specification: `---- STDOUT ----\n<stdout>\n` in red. -/
def stdoutBlock (r : RunnerResult) : Piece :=
  Piece.color Color.red ("---- STDOUT ----\n".toList ++ r.Stdout ++ "\n".toList)

/-- The red STDERR block of a failure block: `---- STDERR ----\n<stderr>\n` in
red. -/
def stderrBlock (r : RunnerResult) : Piece :=
  Piece.color Color.red ("---- STDERR ----\n".toList ++ r.Stderr ++ "\n".toList)

/-- The red closing rule of a failure block. -/
def closingRule : Piece :=
  Piece.color Color.red "---------------\n".toList

/-- What the specification says of the output blocks of a failure block `blk`
for the result `r`: the STDOUT block is there exactly when stdout is not
empty, the STDERR block exactly when stderr is not empty, the STDOUT block
comes right before the STDERR block when both are there, and the closing rule
is the last print exactly when one of the two is not empty. -/
def HasOutputBlocks (r : RunnerResult) (blk : List Piece) : Prop :=
  (stdoutBlock r ∈ blk ↔ r.Stdout ≠ []) ∧
    (stderrBlock r ∈ blk ↔ r.Stderr ≠ []) ∧
    (r.Stdout ≠ [] → r.Stderr ≠ [] → [stdoutBlock r, stderrBlock r] <:+: blk) ∧
    (blk.getLast? = some closingRule ↔ r.Stdout ≠ [] ∨ r.Stderr ≠ [])

/-- The last event of `pre` that is a `PlayStart`, a `RunnerFailed`, a
`RunnerItemFailed` or a `RunnerUnreachable`, if there is one. -/
def lastDecisive (pre : List Event) : Option Event :=
  pre.reverse.find? fun ev => ev.isPlayStart || ev.isProblem

/-- In the words of the claim: a `PlayStart` has been processed, and no
`RunnerFailed`, `RunnerItemFailed` or `RunnerUnreachable` has been processed
since the most recent one. That is: among the `PlayStart` and problem events of
`pre` there is a last one, and it is a `PlayStart`. -/
def statusOwedAfter (pre : List Event) : Bool :=
  match lastDecisive pre with
  | some ev => ev.isPlayStart
  | none => false

/-- The stream of a list of plays: for each play its `PlayStart` followed by
the events of the play. -/
def playsStream : List (GoString × List Event) → List Event
  | [] => []
  | (name, body) :: rest => Event.playStart name :: body ++ playsStream rest

/-- The stream of a playbook of `N` plays: `PlaybookStart(N)`, the plays, one
final `PlaybookEnd`. -/
def playbookStream (N : Int) (plays : List (GoString × List Event)) : List Event :=
  Event.playbookStart N :: playsStream plays ++ [Event.playbookEnd]

/-- Go's `%q` on a string made of printable ASCII characters other than the
double quote and the backslash: the string between double quotes. It is the
quoting function passed to `ExplainEvent` in the statements about one concrete
stream. -/
def quotePlain (s : GoString) : GoString :=
  '"' :: s ++ ['"']

/-- The message of the play-status line of play number `j` of `N` named `name`,
in the words of the specification:
`rightPadToLen("j/N", ".", 7) + " " + name`. -/
def statusTextOf (j N : Int) (name : GoString) : Option GoString :=
  (rightPadToLen (sprintfCount j N) ".".toList 7).map fun ind => ind ++ ' ' :: name

/-- The OK lines of the plays named `names`, numbered from `j`, of a playbook
of `N` plays: one `PrettyPrintOk` per play, in play order. -/
def expectedOkLines (N : Int) : Int → List GoString → List (Option Output)
  | _, [] => []
  | j, name :: rest =>
    (statusTextOf j N name).map (fun t => Output.print (Piece.pretty Severity.ok t)) ::
      expectedOkLines N (j + 1) rest

/-- One play-status line per play, numbered from `j`, in play order: the error
header when an event of the play satisfies `fails`, the OK line otherwise. -/
def expectedStatusLines (fails : Event → Bool) (N : Int) :
    Int → List (GoString × List Event) → List (Option (StatusKind × GoString))
  | _, [] => []
  | j, (name, body) :: rest =>
    (statusTextOf j N name).map
        (fun t => (if body.any fails then StatusKind.errHeader else StatusKind.ok, t)) ::
      expectedStatusLines fails N (j + 1) rest

/-- The play-status lines `ExplainEvent` adds to the bypass channel for one
event, read off the branches of the type switch: the OK line of the
`PlayStartEvent` branch (previous play named) and of the `PlaybookEndEvent`
branch (no failure so far), the error header of the two failure branches (no
failure so far). It is proved equal to what `statusLines` finds in the writes
of `ExplainEvent` (`statusLines_ExplainEvent`). -/
def stepStatus (e : updatingExplainer) : Event → List (StatusKind × GoString)
  | Event.playStart _ =>
    if e.currentPlayName ≠ [] then [(StatusKind.ok, e.statusText)] else []
  | Event.playbookEnd =>
    if !e.failureOccurred then [(StatusKind.ok, e.statusText)] else []
  | Event.runnerFailed _ _ _ =>
    if !e.failureOccurred then [(StatusKind.errHeader, e.statusText)] else []
  | Event.runnerItemFailed _ _ _ =>
    if !e.failureOccurred then [(StatusKind.errHeader, e.statusText)] else []
  | _ => []

/-- The counting invariant of the status lines: the lines written so far,
plus the one the final `PlaybookEnd` still owes when no failure has occurred,
do not exceed the number `p` of `PlayStart` events seen (one, when none has
been seen). -/
def StatusBound (e : updatingExplainer) (p : Nat) : Prop :=
  (statusLines e.out.bypass).length + (if e.failureOccurred then 0 else 1) ≤ max p 1 ∧
    (p = 0 → e.currentPlayName = [])

/-! ## The package check -/

/-- Source struct `PackageQuery` (package.go 9-12). -/
structure PackageQuery where
  Name : GoString
  Version : GoString
deriving DecidableEq

/-- The interface `PackageManager` as `Check` uses it: two queries, each
returning a boolean and an error (`none` for `nil`, otherwise the message of
the error). -/
structure PackageManager where
  IsInstalled : PackageQuery → Bool × Option GoString
  IsAvailable : PackageQuery → Bool × Option GoString

/-- Source struct `PackageCheck` (package.go 20-24). -/
structure PackageCheck where
  PackageQuery : PackageQuery
  PackageManager : PackageManager
  InstallationDisabled : Bool

/-- Source method `PackageCheck.Check` (package.go 29-46). -/
def PackageCheck.Check (c : PackageCheck) : Bool × Option GoString :=
  match c.PackageManager.IsInstalled c.PackageQuery with
  | (_, some err) =>
    (false, some ("failed to determine if package is installed: ".toList ++ err))
  | (installed, none) =>
    if installed then (true, none)
    else if c.InstallationDisabled && !installed then
      (false, some "Package is not installed, and package installation is disabled".toList)
    else
      match c.PackageManager.IsAvailable c.PackageQuery with
      | (_, some err) =>
        (false, some
          ("failed to determine if package is available for installation: ".toList ++ err))
      | (available, none) => (available, none)

/-- The package manager of the test file (package_test.go 5-16): both queries
succeed with a fixed answer. -/
def stubPkgManager (installed available : Bool) : PackageManager where
  IsInstalled _ := (installed, none)
  IsAvailable _ := (available, none)

/-! # Theorems -/

/-! ## `rightPadToLen` -/

theorem length_stringsRepeat (p : GoString) (n : Nat) :
    (stringsRepeat p n).length = n * p.length := by
  unfold stringsRepeat
  induction n with
  | zero => simp
  | succ k ih => simp [List.replicate_succ, ih, Nat.succ_mul, Nat.add_comm]

theorem stringsRepeat_singleton (c : Char) (n : Nat) :
    stringsRepeat [c] n = List.replicate n c := by
  unfold stringsRepeat
  induction n with
  | zero => simp
  | succ k ih => simp [List.replicate_succ, ih]

/-- For a width that is not negative and a pad that is not empty the repeat
count of `rightPadToLen` is not negative. -/
theorem padCount_nonneg (w : Int) (l : Nat) (hl : 0 < l) (hw : 0 ≤ w) :
    0 ≤ 1 + Int.tdiv (w - l) l := by
  have hl0 : (0 : Int) < l := by exact_mod_cast hl
  rcases le_or_lt (l : Int) w with h | h
  · have := Int.tdiv_nonneg (a := w - l) (b := l) (by omega) (by omega)
    omega
  · have e : w - (l : Int) = -((l : Int) - w) := by ring
    rw [e, Int.neg_tdiv, Int.tdiv_eq_ediv (by omega) (by omega)]
    have : ((l : Int) - w) / l < 2 := Int.ediv_lt_of_lt_mul hl0 (by omega)
    omega

/-- When `rightPadToLen` returns, the result has the requested length. -/
theorem rightPadToLen_some_length (s p : GoString) (w : Int) (r : GoString)
    (h : rightPadToLen s p w = some r) : (r.length : Int) = w := by
  unfold rightPadToLen at h
  split at h
  · exact absurd h (by simp)
  · simp only at h
    split at h
    · exact absurd h (by simp)
    · split at h
      · exact absurd h (by simp)
      · rename_i hb
        have hr := Option.some.inj h
        rw [← hr, List.length_take]
        omega

/-- The inputs on which `rightPadToLen` returns. -/
theorem rightPadToLen_isSome_iff (s p : GoString) (w : Int) :
    (rightPadToLen s p w).isSome = true ↔
      p ≠ [] ∧ 0 ≤ w ∧
        w ≤ s.length + (1 + Int.tdiv (w - p.length) p.length) * p.length := by
  unfold rightPadToLen
  by_cases hp : p = []
  · simp [hp]
  · have hl : 0 < p.length := List.length_pos.mpr hp
    have hl0 : p.length ≠ 0 := by omega
    by_cases hw : 0 ≤ w
    · have hc := padCount_nonneg w p.length hl hw
      have hcast : ((Int.toNat (1 + Int.tdiv (w - p.length) p.length) : Nat) : Int)
          = 1 + Int.tdiv (w - p.length) p.length := Int.toNat_of_nonneg hc
      simp only [hl0, if_false, not_lt.mpr hc, List.length_append, length_stringsRepeat]
      push_cast
      rw [hcast]
      simp [hp, hw, not_lt.mpr hw]
    · have hw1 : w < 0 := by omega
      simp only [hl0, if_false]
      split
      · simp [hw]
      · simp [hw1, hw]

/-- The value of `rightPadToLen` for a one-byte pad and a width that is not
negative. -/
theorem rightPadToLen_singleton_pad (s : GoString) (c : Char) (w : Int) (hw : 0 ≤ w) :
    rightPadToLen s [c] w = some ((s ++ List.replicate w.toNat c).take w.toNat) := by
  have hcast : ((w.toNat : Nat) : Int) = w := Int.toNat_of_nonneg hw
  unfold rightPadToLen
  simp only [List.length_singleton, Nat.cast_one, Int.tdiv_one, one_ne_zero, if_false]
  have h1 : (1 : Int) + (w - 1) = w := by ring
  rw [h1, stringsRepeat_singleton]
  simp only [not_lt.mpr hw, if_false, false_or, List.length_append, List.length_replicate]
  rw [if_neg]
  push_cast
  omega

/-- The indicator call never panics: with the pad `"."` and the width 7,
`rightPadToLen` returns the first seven bytes of `s` followed by seven dots. -/
theorem rightPadToLen_dot_seven (s : GoString) :
    rightPadToLen s ".".toList 7 = some ((s ++ List.replicate 7 '.').take 7) :=
  rightPadToLen_singleton_pad s '.' 7 (by decide)

/-- C8, as stated, fails: with the empty string, the two-byte pad `"ab"` and
the width 7 no string is returned (the slice is out of range). -/
theorem rightPadToLen_length_counterexample :
    ¬ ∃ r, rightPadToLen "".toList "ab".toList 7 = some r ∧ r.length = 7 := by
  have h : rightPadToLen "".toList "ab".toList 7 = none := by decide
  rintro ⟨r, hr, _⟩
  rw [h] at hr
  cases hr

/-- C8 (amended): `rightPadToLen(s, p, w)` returns a string exactly when `p` is
not empty, `w` is not negative and `len(s) + (1 + (w - len(p)) / len(p)) * len(p)`
reaches `w` (which holds for every one-byte pad); the string it returns has
length exactly `w`. In every other case it panics. -/
theorem rightPadToLen_length (s p : GoString) (w : Int) :
    ((rightPadToLen s p w).isSome = true ↔
        p ≠ [] ∧ 0 ≤ w ∧
          w ≤ s.length + (1 + Int.tdiv (w - p.length) p.length) * p.length) ∧
      (∀ r, rightPadToLen s p w = some r → (r.length : Int) = w) ∧
      (∀ c : Char, 0 ≤ w → (rightPadToLen s [c] w).isSome = true) :=
  ⟨rightPadToLen_isSome_iff s p w,
   fun r h => rightPadToLen_some_length s p w r h,
   fun c hw => by rw [rightPadToLen_singleton_pad s c w hw]; rfl⟩

/-- Witness of C8 (amended) at `"1/3"`, `"."`, 7: the call returns, and what it
returns has length 7. -/
theorem rightPadToLen_length_witness :
    (rightPadToLen "1/3".toList ".".toList 7).isSome = true ∧
      ∀ r, rightPadToLen "1/3".toList ".".toList 7 = some r → (r.length : Int) = 7 :=
  ⟨(rightPadToLen_length "1/3".toList ".".toList 7).2.2 '.' (by decide),
   (rightPadToLen_length "1/3".toList ".".toList 7).2.1⟩

/-- C9: for a one-byte pad `p` and a width `w` that is not negative,
`rightPadToLen(s, p, w)` is the first `w` bytes of `s` followed by `w` copies of
`p`: `s` followed by `w - len(s)` copies of `p` when `len(s) <= w`, the first
`w` bytes of `s` when `len(s) > w`. -/
theorem rightPadToLen_one_byte (s : GoString) (c : Char) (w : Int) (hw : 0 ≤ w) :
    rightPadToLen s [c] w = some ((s ++ List.replicate w.toNat c).take w.toNat) ∧
      ((s.length : Int) ≤ w →
        rightPadToLen s [c] w = some (s ++ List.replicate (w.toNat - s.length) c)) ∧
      (w < (s.length : Int) → rightPadToLen s [c] w = some (s.take w.toNat)) := by
  have hcast : ((w.toNat : Nat) : Int) = w := Int.toNat_of_nonneg hw
  refine ⟨rightPadToLen_singleton_pad s c w hw, fun hle => ?_, fun hlt => ?_⟩
  · rw [rightPadToLen_singleton_pad s c w hw, List.take_append_eq_append_take,
      List.take_of_length_le (by omega), List.take_replicate]
    congr 3
    omega
  · rw [rightPadToLen_singleton_pad s c w hw, List.take_append_of_le_length (by omega)]

/-- Witness of C9: the four indicator texts of the specification, pad `"."`
and width 7. -/
theorem rightPadToLen_one_byte_witness :
    rightPadToLen "1/3".toList ".".toList 7 = some "1/3....".toList ∧
      rightPadToLen "10/10".toList ".".toList 7 = some "10/10..".toList ∧
      rightPadToLen "100/100".toList ".".toList 7 = some "100/100".toList ∧
      rightPadToLen "1000/100".toList ".".toList 7 = some "1000/10".toList :=
  ⟨(rightPadToLen_one_byte "1/3".toList '.' 7 (by decide)).2.1 (by decide),
   (rightPadToLen_one_byte "10/10".toList '.' 7 (by decide)).2.1 (by decide),
   (rightPadToLen_one_byte "100/100".toList '.' 7 (by decide)).2.1 (by decide),
   (rightPadToLen_one_byte "1000/100".toList '.' 7 (by decide)).2.2 (by decide)⟩

/-! ## The updating explainer: one event -/

section OneEvent

variable (quote : GoString → GoString)

theorem playCountIndicator_eq (e : updatingExplainer) :
    rightPadToLen (sprintfCount e.currentPlay e.playCount) ".".toList 7 =
      some e.playCountIndicator := by
  unfold updatingExplainer.playCountIndicator
  rw [rightPadToLen_dot_seven]
  rfl

theorem statusText_eq (e : updatingExplainer) :
    statusTextOf e.currentPlay e.playCount e.currentPlayName = some e.statusText := by
  unfold statusTextOf
  rw [playCountIndicator_eq]
  rfl

theorem statusLines_append (a b : List Output) :
    statusLines (a ++ b) = statusLines a ++ statusLines b := by
  simp [statusLines, List.filterMap_append]

/-- A failure block that opens with the host line carries no status line. -/
theorem statusLine_host_block (p : Piece) (r : RunnerResult) :
    statusLine (Output.format (p :: updatingExplainer.outputBlocks r)) = none := by
  unfold updatingExplainer.outputBlocks
  by_cases h1 : r.Stdout = [] <;> by_cases h2 : r.Stderr = [] <;>
    simp only [h1, h2, ne_eq, not_true_eq_false, not_false_eq_true, if_true, if_false,
      or_self, or_true, true_or, List.nil_append, List.cons_append, List.append_nil] <;>
    cases p <;> first | rfl | (rename_i sev _; cases sev <;> rfl)

/-- A failure block carries the error header exactly when it is the block of
the first failure. -/
theorem statusLines_failure_block (e : updatingExplainer) (p : Piece) (r : RunnerResult) :
    statusLines [Output.format (e.failureHeader ++ p :: updatingExplainer.outputBlocks r)] =
      if e.failureOccurred = false then [(StatusKind.errHeader, e.statusText)] else [] := by
  unfold updatingExplainer.failureHeader
  cases hf : e.failureOccurred
  · simp [statusLines, statusLine]
  · simp [statusLines, statusLine_host_block]

/-- The status lines `statusLines` finds in what one event adds to the bypass
channel are those of `stepStatus`. -/
theorem statusLines_ExplainEvent (e : updatingExplainer) (ev : Event) :
    statusLines (e.ExplainEvent quote ev).out.bypass =
      statusLines e.out.bypass ++ stepStatus e ev := by
  cases ev <;>
    simp only [updatingExplainer.ExplainEvent, stepStatus, Writer.Bypass, Writer.Write,
      statusLines_append, List.append_nil, List.append_assoc, List.singleton_append,
      statusLines_failure_block]
  case playStart name =>
    by_cases h : e.currentPlayName = [] <;> simp [h, statusLines_append, statusLines, statusLine]
  case playbookEnd =>
    cases h : e.failureOccurred <;> simp [h, statusLines_append, statusLines, statusLine]
  case handlerTaskStart name =>
    cases h : e.failureOccurred <;> simp [h]
  case runnerFailed host ig r =>
    cases h : e.failureOccurred <;> simp [h]
  case runnerItemFailed host ig r =>
    cases h : e.failureOccurred <;> simp [h]
  case runnerUnreachable host =>
    simp [statusLines, statusLine, updatingExplainer.headerLine]
  case other t =>
    simp [statusLines, statusLine]

/-- No event clears the failure flag. -/
theorem failureOccurred_ExplainEvent (e : updatingExplainer) (ev : Event)
    (h : e.failureOccurred = true) : (e.ExplainEvent quote ev).failureOccurred = true := by
  cases ev <;> simp [updatingExplainer.ExplainEvent, h]
  case playStart name => split <;> simp [h]

/-- No stream of events clears the failure flag. -/
theorem failureOccurred_ExplainAll (evs : List Event) (e : updatingExplainer)
    (h : e.failureOccurred = true) : (e.ExplainAll quote evs).failureOccurred = true := by
  induction evs generalizing e with
  | nil => exact h
  | cons ev rest ih =>
    exact ih (e.ExplainEvent quote ev) (failureOccurred_ExplainEvent quote e ev h)

/-- Every failure event, ignored or not, sets the failure flag. -/
theorem failureOccurred_of_isFailure (e : updatingExplainer) (ev : Event)
    (h : ev.isFailure = true) : (e.ExplainEvent quote ev).failureOccurred = true := by
  cases ev <;> simp_all [updatingExplainer.ExplainEvent, Event.isFailure]

theorem ExplainAll_append (e : updatingExplainer) (a b : List Event) :
    e.ExplainAll quote (a ++ b) = (e.ExplainAll quote a).ExplainAll quote b := by
  simp [updatingExplainer.ExplainAll, List.foldl_append]

theorem ExplainAll_cons (e : updatingExplainer) (ev : Event) (rest : List Event) :
    e.ExplainAll quote (ev :: rest) = (e.ExplainEvent quote ev).ExplainAll quote rest := rfl

theorem ExplainAll_nil (e : updatingExplainer) : e.ExplainAll quote [] = e := rfl

/-- C6, as stated, fails: a `PlayStart` processed after a failure leaves
`failureOccurred` true. -/
theorem playStart_failed_counterexample :
    ((UpdatingExplainer.ExplainAll quotePlain
        [Event.playbookStart 2, Event.playStart "A".toList,
         Event.runnerFailed "h1".toList false RunnerResult.zero]).ExplainEvent quotePlain
      (Event.playStart "B".toList)).failureOccurred = true := by
  decide

/-- C6 (amended): in updating mode, processing a `PlayStart` event in any state
leaves `failureOccurred` as it was; the flag is not reset. -/
theorem playStart_failureOccurred (e : updatingExplainer) (name : GoString) :
    (e.ExplainEvent quote (Event.playStart name)).failureOccurred = e.failureOccurred := by
  simp only [updatingExplainer.ExplainEvent]
  split <;> rfl

/-- C5: once a `RunnerFailed` or a `RunnerItemFailed` event has been processed,
whatever its `IgnoreErrors` and whatever events follow it (in the same play or
not), a `HandlerTaskStart` leaves the explainer as it is: nothing is written to
the transient frame, nothing to the bypass channel, no field changes. -/
theorem handlerTaskStart_after_failure (e0 : updatingExplainer) (pre mid : List Event)
    (f : Event) (name : GoString) (hf : f.isFailure = true) :
    (e0.ExplainAll quote (pre ++ f :: mid)).ExplainEvent quote (Event.handlerTaskStart name) =
      e0.ExplainAll quote (pre ++ f :: mid) := by
  have h : (e0.ExplainAll quote (pre ++ f :: mid)).failureOccurred = true := by
    rw [ExplainAll_append, ExplainAll_cons]
    exact failureOccurred_ExplainAll quote mid _ (failureOccurred_of_isFailure quote _ f hf)
  simp [updatingExplainer.ExplainEvent, h]

/-- Witness of C5: a play whose task fails on one host, succeeds on another,
and then echoes a handler. -/
theorem handlerTaskStart_after_failure_witness :
    (UpdatingExplainer.ExplainAll quotePlain
        ([Event.playbookStart 1, Event.playStart "P".toList, Event.taskStart "T".toList] ++
          Event.runnerFailed "h1".toList false RunnerResult.zero ::
            [Event.runnerOK "h2".toList])).ExplainEvent quotePlain
        (Event.handlerTaskStart "HT".toList) =
      UpdatingExplainer.ExplainAll quotePlain
        ([Event.playbookStart 1, Event.playStart "P".toList, Event.taskStart "T".toList] ++
          Event.runnerFailed "h1".toList false RunnerResult.zero ::
            [Event.runnerOK "h2".toList]) :=
  handlerTaskStart_after_failure quotePlain UpdatingExplainer _ _ _ _ rfl

end OneEvent

/-! ## The updating explainer: streams -/

section Streams

open updatingExplainer

variable (quote : GoString → GoString)

/-- The events inside a play leave the play counters and the play name. -/
theorem inPlay_fields (e : updatingExplainer) (ev : Event) (h : ev.isInPlay = true) :
    (e.ExplainEvent quote ev).playCount = e.playCount ∧
      (e.ExplainEvent quote ev).currentPlay = e.currentPlay ∧
      (e.ExplainEvent quote ev).currentPlayName = e.currentPlayName := by
  cases ev <;> simp_all [ExplainEvent, Event.isInPlay, Event.isPlaybookStart, Event.isPlayStart,
    Event.isPlaybookEnd]
  case handlerTaskStart name => split <;> simp

theorem statusText_congr (e1 e2 : updatingExplainer) (h1 : e1.playCount = e2.playCount)
    (h2 : e1.currentPlay = e2.currentPlay) (h3 : e1.currentPlayName = e2.currentPlayName) :
    e1.statusText = e2.statusText := by
  simp [statusText, playCountIndicator, h1, h2, h3]

/-- The failure flag after an event inside a play. -/
theorem inPlay_failureOccurred (e : updatingExplainer) (ev : Event) (h : ev.isInPlay = true) :
    (e.ExplainEvent quote ev).failureOccurred = (e.failureOccurred || ev.isFailure) := by
  cases ev <;> simp_all [ExplainEvent, Event.isInPlay, Event.isPlaybookStart, Event.isPlayStart,
    Event.isPlaybookEnd, Event.isFailure]
  case handlerTaskStart name => split <;> simp_all

theorem stepStatus_inPlay (e : updatingExplainer) (ev : Event) (h : ev.isInPlay = true) :
    stepStatus e ev =
      if (!e.failureOccurred && ev.isFailure) = true then [(StatusKind.errHeader, e.statusText)]
      else [] := by
  cases ev <;> simp_all [stepStatus, Event.isInPlay, Event.isPlaybookStart, Event.isPlayStart,
    Event.isPlaybookEnd, Event.isFailure]

/-- The events of one play: the play counters and the play name stay, the
failure flag is set by the first failure event, and the only status line added
is the error header of the first failure of the explainer. -/
theorem ExplainAll_inPlay (evs : List Event) (e : updatingExplainer)
    (h : ∀ ev ∈ evs, ev.isInPlay = true) :
    (e.ExplainAll quote evs).playCount = e.playCount ∧
      (e.ExplainAll quote evs).currentPlay = e.currentPlay ∧
      (e.ExplainAll quote evs).currentPlayName = e.currentPlayName ∧
      (e.ExplainAll quote evs).failureOccurred = (e.failureOccurred || evs.any Event.isFailure) ∧
      statusLines (e.ExplainAll quote evs).out.bypass =
        statusLines e.out.bypass ++
          if (!e.failureOccurred && evs.any Event.isFailure) = true then
            [(StatusKind.errHeader, e.statusText)]
          else [] := by
  induction evs generalizing e with
  | nil => simp [ExplainAll]
  | cons ev rest ih =>
    have hev : ev.isInPlay = true := h ev (List.mem_cons_self _ _)
    obtain ⟨f1, f2, f3⟩ := inPlay_fields quote e ev hev
    have f4 := inPlay_failureOccurred quote e ev hev
    obtain ⟨g1, g2, g3, g4, g5⟩ := ih (e.ExplainEvent quote ev)
      (fun x hx => h x (List.mem_cons_of_mem _ hx))
    have ht := statusText_congr _ _ f1 f2 f3
    rw [ExplainAll_cons]
    refine ⟨g1.trans f1, g2.trans f2, g3.trans f3, ?_, ?_⟩
    · rw [g4, f4]; simp [Bool.or_assoc]
    · rw [g5, statusLines_ExplainEvent, stepStatus_inPlay e ev hev, f4, ht,
        List.append_assoc]
      simp only [List.any_cons]
      rcases Bool.eq_false_or_eq_true e.failureOccurred with h1 | h1 <;>
        rcases Bool.eq_false_or_eq_true ev.isFailure with h2 | h2 <;>
        rcases Bool.eq_false_or_eq_true (rest.any Event.isFailure) with h3 | h3 <;>
        simp [h1, h2, h3]

/-- The fields after a `PlayStart`. -/
theorem playStart_fields (e : updatingExplainer) (name : GoString) :
    (e.ExplainEvent quote (Event.playStart name)).playCount = e.playCount ∧
      (e.ExplainEvent quote (Event.playStart name)).currentPlay =
        (if e.currentPlayName ≠ [] then e.currentPlay + 1 else e.currentPlay) ∧
      (e.ExplainEvent quote (Event.playStart name)).currentPlayName = name ∧
      (e.ExplainEvent quote (Event.playStart name)).failureOccurred = e.failureOccurred := by
  simp only [ExplainEvent]
  split <;> simp [*]

theorem any_isFailure_eq_false (evs : List Event)
    (h : ∀ ev ∈ evs, ev.isInPlay = true ∧ ev.isFailure = false) :
    evs.any Event.isFailure = false := by
  rw [List.any_eq_false]
  intro x hx
  simp [(h x hx).2]

/-- The status lines of a run of plays that ends the playbook, from a state in
which no failure has occurred: the OK line of the play that was open, then one
line per play. -/
theorem statusLines_plays (N : Int) (plays : List (GoString × List Event))
    (last : GoString × List Event)
    (hplays : ∀ p ∈ plays, p.1 ≠ [] ∧ ∀ ev ∈ p.2, ev.isInPlay = true ∧ ev.isFailure = false)
    (hlast : ∀ ev ∈ last.2, ev.isInPlay = true)
    (e : updatingExplainer) (hN : e.playCount = N) (hf : e.failureOccurred = false) :
    (statusLines (e.ExplainAll quote
        (playsStream (plays ++ [last]) ++ [Event.playbookEnd])).out.bypass).map some =
      (statusLines e.out.bypass ++ stepStatus e (Event.playStart [])).map some ++
        expectedStatusLines Event.isFailure N
          (if e.currentPlayName ≠ [] then e.currentPlay + 1 else e.currentPlay)
          (plays ++ [last]) := by
  induction plays generalizing e with
  | nil =>
    obtain ⟨name, body⟩ := last
    obtain ⟨a1, a2, a3, a4⟩ := playStart_fields quote e name
    obtain ⟨b1, b2, b3, b4, b5⟩ :=
      ExplainAll_inPlay quote body (e.ExplainEvent quote (Event.playStart name)) hlast
    have ht := statusText_congr _ _ b1 b2 b3
    have hs := statusText_eq (e.ExplainEvent quote (Event.playStart name))
    rw [a1, a2, a3, hN] at hs
    simp only [List.nil_append, playsStream, List.append_nil, ExplainAll_cons, ExplainAll_append,
      ExplainAll_nil, expectedStatusLines, hs, Option.map_some]
    rw [statusLines_ExplainEvent, b5, statusLines_ExplainEvent]
    simp only [stepStatus, b4, a4, hf, ht]
    rcases Bool.eq_false_or_eq_true (body.any Event.isFailure) with h3 | h3 <;> simp [h3]
  | cons p rest ih =>
    obtain ⟨name, body⟩ := p
    have hp := hplays (name, body) (List.mem_cons_self _ _)
    obtain ⟨a1, a2, a3, a4⟩ := playStart_fields quote e name
    obtain ⟨b1, b2, b3, b4, b5⟩ :=
      ExplainAll_inPlay quote body (e.ExplainEvent quote (Event.playStart name))
        (fun ev hev => (hp.2 ev hev).1)
    have hany := any_isFailure_eq_false body hp.2
    have ht := statusText_congr _ _ b1 b2 b3
    have hs := statusText_eq (e.ExplainEvent quote (Event.playStart name))
    rw [a1, a2, a3, hN] at hs
    have hname : (ExplainAll quote (e.ExplainEvent quote (Event.playStart name))
        body).currentPlayName ≠ [] := by rw [b3, a3]; exact hp.1
    have := ih (fun q hq => hplays q (List.mem_cons_of_mem _ hq))
      (ExplainAll quote (e.ExplainEvent quote (Event.playStart name)) body)
      (by rw [b1, a1, hN]) (by rw [b4, a4, hf, hany]; rfl)
    have hstream : playsStream ((name, body) :: rest ++ [last]) ++ [Event.playbookEnd] =
        Event.playStart name ::
          (body ++ (playsStream (rest ++ [last]) ++ [Event.playbookEnd])) := by
      simp [playsStream]
    rw [hstream, ExplainAll_cons, ExplainAll_append, this, b5, statusLines_ExplainEvent,
      if_pos hname, b2, a2]
    have hs2 := hs
    simp only [ne_eq, ite_not] at hs2
    simp [stepStatus, hname, hany, a4, hf, expectedStatusLines, hs2, ht]

/-- The progress events write to the transient frame only and leave the play
counters, the play name and the failure flag. -/
theorem progress_fields (e : updatingExplainer) (ev : Event) (h : ev.isProgress = true) :
    (e.ExplainEvent quote ev).out.bypass = e.out.bypass ∧
      (e.ExplainEvent quote ev).playCount = e.playCount ∧
      (e.ExplainEvent quote ev).currentPlay = e.currentPlay ∧
      (e.ExplainEvent quote ev).currentPlayName = e.currentPlayName ∧
      (e.ExplainEvent quote ev).failureOccurred = e.failureOccurred := by
  cases ev <;> simp_all [ExplainEvent, Event.isProgress, Writer.Write]
  case handlerTaskStart name => split <;> simp_all

theorem ExplainAll_progress (evs : List Event) (e : updatingExplainer)
    (h : ∀ ev ∈ evs, ev.isProgress = true) :
    (e.ExplainAll quote evs).out.bypass = e.out.bypass ∧
      (e.ExplainAll quote evs).playCount = e.playCount ∧
      (e.ExplainAll quote evs).currentPlay = e.currentPlay ∧
      (e.ExplainAll quote evs).currentPlayName = e.currentPlayName ∧
      (e.ExplainAll quote evs).failureOccurred = e.failureOccurred := by
  induction evs generalizing e with
  | nil => simp [ExplainAll]
  | cons ev rest ih =>
    obtain ⟨f1, f2, f3, f4, f5⟩ := progress_fields quote e ev (h ev (List.mem_cons_self _ _))
    obtain ⟨g1, g2, g3, g4, g5⟩ := ih (e.ExplainEvent quote ev)
      (fun x hx => h x (List.mem_cons_of_mem _ hx))
    rw [ExplainAll_cons]
    exact ⟨g1.trans f1, g2.trans f2, g3.trans f3, g4.trans f4, g5.trans f5⟩

/-- The bypass channel after a run of successful plays that ends the playbook,
from a state inside a named play in which no failure has occurred. -/
theorem bypass_plays (N : Int) (plays : List (GoString × List Event))
    (hplays : ∀ p ∈ plays, p.1 ≠ [] ∧ ∀ ev ∈ p.2, ev.isProgress = true)
    (e : updatingExplainer) (hN : e.playCount = N) (hname : e.currentPlayName ≠ [])
    (hf : e.failureOccurred = false) :
    (e.ExplainAll quote (playsStream plays ++ [Event.playbookEnd])).out.bypass.map some =
      e.out.bypass.map some ++
        expectedOkLines N e.currentPlay (e.currentPlayName :: plays.map Prod.fst) := by
  induction plays generalizing e with
  | nil =>
    have hs := statusText_eq e
    rw [hN] at hs
    simp [playsStream, ExplainAll, ExplainEvent, hf, Writer.Bypass, expectedOkLines, hs]
  | cons p rest ih =>
    obtain ⟨name, body⟩ := p
    have hp := hplays (name, body) (List.mem_cons_self _ _)
    have hs := statusText_eq e
    rw [hN] at hs
    obtain ⟨b1, b2, b3, b4, b5⟩ :=
      ExplainAll_progress quote body (e.ExplainEvent quote (Event.playStart name)) hp.2
    have a : (e.ExplainEvent quote (Event.playStart name)).out.bypass =
          e.out.bypass ++ [Output.print (Piece.pretty Severity.ok e.statusText)] ∧
        (e.ExplainEvent quote (Event.playStart name)).playCount = e.playCount ∧
        (e.ExplainEvent quote (Event.playStart name)).currentPlay = e.currentPlay + 1 ∧
        (e.ExplainEvent quote (Event.playStart name)).currentPlayName = name ∧
        (e.ExplainEvent quote (Event.playStart name)).failureOccurred = e.failureOccurred := by
      simp [ExplainEvent, hname, Writer.Bypass, Writer.Write]
    obtain ⟨a1, a2, a3, a4, a5⟩ := a
    have := ih (fun q hq => hplays q (List.mem_cons_of_mem _ hq))
      (ExplainAll quote (e.ExplainEvent quote (Event.playStart name)) body)
      (by rw [b2, a2, hN]) (by rw [b4, a4]; exact hp.1) (by rw [b5, a5, hf])
    have hstream : playsStream ((name, body) :: rest) ++ [Event.playbookEnd] =
        Event.playStart name :: (body ++ (playsStream rest ++ [Event.playbookEnd])) := by
      simp [playsStream]
    rw [hstream, ExplainAll_cons, ExplainAll_append, this, b1, b3, b4, a1, a3, a4]
    simp [expectedOkLines, hs]

/-- C2: for every `N` and every list of `k >= 1` plays with a non-empty name,
each followed by any `TaskStart`, `HandlerTaskStart`, `RunnerOK`,
`RunnerItemOK`, `RunnerSkipped` or `RunnerItemRetry` events, the stream
`PlaybookStart(N)`, the plays, `PlaybookEnd` on a fresh updating explainer
writes to the bypass channel exactly `k` writes, the `j`-th being the
`PrettyPrintOk` of `rightPadToLen("j/N", ".", 7) + " " + name_j`. -/
theorem ok_lines_of_successful_playbook (N : Int) (plays : List (GoString × List Event))
    (hne : plays ≠ [])
    (hplays : ∀ p ∈ plays, p.1 ≠ [] ∧ ∀ ev ∈ p.2, ev.isProgress = true) :
    (UpdatingExplainer.ExplainAll quote (playbookStream N plays)).out.bypass.map some =
        expectedOkLines N 1 (plays.map Prod.fst) ∧
      (UpdatingExplainer.ExplainAll quote (playbookStream N plays)).out.bypass.length =
        plays.length := by
  have key : (UpdatingExplainer.ExplainAll quote (playbookStream N plays)).out.bypass.map some =
        expectedOkLines N 1 (plays.map Prod.fst) := by
    cases plays with
    | nil => exact absurd rfl hne
    | cons p rest =>
      obtain ⟨name, body⟩ := p
      have hp := hplays (name, body) (List.mem_cons_self _ _)
      let e1 := (UpdatingExplainer.ExplainEvent quote (Event.playbookStart N)).ExplainEvent quote
        (Event.playStart name)
      have a : e1.out.bypass = [] ∧ e1.playCount = N ∧ e1.currentPlay = 1 ∧
          e1.currentPlayName = name ∧ e1.failureOccurred = false := by
        simp [e1, ExplainEvent, UpdatingExplainer, Writer.Write]
      obtain ⟨a1, a2, a3, a4, a5⟩ := a
      obtain ⟨b1, b2, b3, b4, b5⟩ := ExplainAll_progress quote body e1 hp.2
      have := bypass_plays quote N rest (fun q hq => hplays q (List.mem_cons_of_mem _ hq))
        (ExplainAll quote e1 body) (by rw [b2, a2]) (by rw [b4, a4]; exact hp.1)
        (by rw [b5, a5])
      have hstream : playbookStream N ((name, body) :: rest) =
          Event.playbookStart N :: Event.playStart name ::
            (body ++ (playsStream rest ++ [Event.playbookEnd])) := by
        simp [playbookStream, playsStream]
      rw [hstream, ExplainAll_cons, ExplainAll_cons, ExplainAll_append, this, b1, b3, b4, a1,
        a3, a4]
      simp
  refine ⟨key, ?_⟩
  have hlen : ∀ (j : Int) (names : List GoString),
      (expectedOkLines N j names).length = names.length := by
    intro j names
    induction names generalizing j with
    | nil => rfl
    | cons n rest ih => simp [expectedOkLines, ih]
  have := congrArg List.length key
  simpa [hlen] using this

/-- Witness of C2: `N = 2`, the plays `Prep` and `Main` of the specification;
the bypass channel holds the OK lines `1/2.... Prep` and `2/2.... Main`. -/
theorem ok_lines_of_successful_playbook_witness :
    (UpdatingExplainer.ExplainAll quotePlain (playbookStream 2
        [("Prep".toList, [Event.taskStart "T1".toList, Event.runnerOK "h1".toList]),
         ("Main".toList, [Event.taskStart "T2".toList,
            Event.runnerOK "h1".toList])])).out.bypass.map some =
      [some (Output.print (Piece.pretty Severity.ok "1/2.... Prep".toList)),
       some (Output.print (Piece.pretty Severity.ok "2/2.... Main".toList))] :=
  (ok_lines_of_successful_playbook quotePlain 2 _ (by decide) (by decide)).1.trans (by decide)

/-- The failure flag after any event. -/
theorem failureOccurred_step (e : updatingExplainer) (ev : Event) :
    (e.ExplainEvent quote ev).failureOccurred = (e.failureOccurred || ev.isFailure) := by
  cases ev <;> simp [ExplainEvent, Event.isFailure]
  case playStart name => split <;> simp
  case playbookEnd => split <;> simp
  case handlerTaskStart name => split <;> simp

/-- Before the first `PlayStart` the play name is empty; a named play has been
started by a `PlayStart`. -/
theorem currentPlayName_step (e : updatingExplainer) (ev : Event)
    (h : ev.isPlayStart = false) :
    (e.ExplainEvent quote ev).currentPlayName = e.currentPlayName := by
  cases ev <;> simp_all [ExplainEvent, Event.isPlayStart]
  case playbookEnd => split <;> simp
  case handlerTaskStart name => split <;> simp

theorem stepStatus_length (e : updatingExplainer) (ev : Event)
    (hend : ev.isPlaybookEnd = false) :
    (stepStatus e ev).length =
      if ev.isPlayStart = true then (if e.currentPlayName = [] then 0 else 1)
      else if ev.isFailure = true ∧ e.failureOccurred = false then 1 else 0 := by
  cases ev <;> simp_all [stepStatus, Event.isFailure, Event.isPlayStart, Event.isPlaybookEnd]
  all_goals split <;> rfl

theorem isFailure_not_isPlayStart (ev : Event) (h : ev.isPlayStart = true) :
    ev.isFailure = false := by
  cases ev <;> simp_all [Event.isFailure, Event.isPlayStart]

theorem StatusBound_step (e : updatingExplainer) (ev : Event) (p : Nat)
    (hend : ev.isPlaybookEnd = false) (h : StatusBound e p) :
    StatusBound (e.ExplainEvent quote ev) (p + if ev.isPlayStart = true then 1 else 0) := by
  obtain ⟨h1, h2⟩ := h
  unfold StatusBound
  rw [statusLines_ExplainEvent, failureOccurred_step, List.length_append,
    stepStatus_length e ev hend]
  rcases Bool.eq_false_or_eq_true ev.isPlayStart with hp | hp
  · have hfail := isFailure_not_isPlayStart ev hp
    have hpos : p ≠ 0 ∨ e.currentPlayName = [] := by
      by_cases h0 : p = 0
      · exact Or.inr (h2 h0)
      · exact Or.inl h0
    simp only [hp, hfail, if_true, Bool.or_false, Bool.false_eq_true, false_and, if_false]
    refine ⟨?_, fun h0 => absurd h0 (by omega)⟩
    rcases Bool.eq_false_or_eq_true e.failureOccurred with hf | hf <;>
      simp only [hf, if_true, Bool.false_eq_true, if_false] at h1 ⊢
    · rcases hpos with h0 | h0
      · split <;> omega
      · simp only [h0, if_true]
        omega
    · rcases hpos with h0 | h0
      · split <;> omega
      · simp only [h0, if_true]
        omega
  · rw [currentPlayName_step quote e ev hp]
    simp only [hp, Bool.false_eq_true, if_false, Nat.add_zero]
    refine ⟨?_, h2⟩
    rcases Bool.eq_false_or_eq_true e.failureOccurred with hf | hf <;>
      rcases Bool.eq_false_or_eq_true ev.isFailure with hv | hv <;>
      simp only [hf, hv, if_true, Bool.false_eq_true, if_false, Bool.or_false, Bool.or_true,
        and_self, and_false, false_and, Bool.or_self, Nat.add_zero, true_and, and_true,
        Bool.true_eq_false] at h1 ⊢ <;>
      omega

theorem StatusBound_ExplainAll (evs : List Event) (e : updatingExplainer) (p : Nat)
    (hend : ∀ ev ∈ evs, ev.isPlaybookEnd = false) (h : StatusBound e p) :
    StatusBound (e.ExplainAll quote evs) (p + evs.countP Event.isPlayStart) := by
  induction evs generalizing e p with
  | nil => simpa [ExplainAll] using h
  | cons ev rest ih =>
    have h1 := StatusBound_step quote e ev p (hend ev (List.mem_cons_self _ _)) h
    have h2 := ih (e.ExplainEvent quote ev) _ (fun x hx => hend x (List.mem_cons_of_mem _ hx)) h1
    rw [ExplainAll_cons, List.countP_cons]
    have e1 : p + (List.countP Event.isPlayStart rest + if ev.isPlayStart = true then 1 else 0) =
        (p + if ev.isPlayStart = true then 1 else 0) + List.countP Event.isPlayStart rest := by
      omega
    rw [e1]
    exact h2

/-- C7, as stated, fails: the stream of a playbook without plays contains no
`PlayStart`, and its `PlaybookEnd` writes one OK line. -/
theorem status_lines_counterexample :
    ¬ (statusLines (UpdatingExplainer.ExplainAll quotePlain
          [Event.playbookStart 1, Event.playbookEnd]).out.bypass).length ≤
        [Event.playbookStart 1, Event.playbookEnd].countP Event.isPlayStart := by
  decide

/-- C7 (amended): for every event stream whose only `PlaybookEnd` is its last
event and which contains `k` `PlayStart` events, processed by a fresh updating
explainer, the number of play-status lines on the bypass channel (OK lines
plus error headers) is at most `max k 1`: at most `k` when the stream has a
`PlayStart`, at most one when it has none. -/
theorem status_lines_at_most_plays (body : List Event)
    (hend : ∀ ev ∈ body, ev.isPlaybookEnd = false) :
    (statusLines (UpdatingExplainer.ExplainAll quote
        (body ++ [Event.playbookEnd])).out.bypass).length ≤
      max ((body ++ [Event.playbookEnd]).countP Event.isPlayStart) 1 := by
  have h0 : StatusBound UpdatingExplainer 0 := by
    simp [StatusBound, UpdatingExplainer, statusLines]
  obtain ⟨h1, -⟩ := StatusBound_ExplainAll quote body UpdatingExplainer 0 hend h0
  rw [ExplainAll_append, ExplainAll_cons, ExplainAll_nil, statusLines_ExplainEvent,
    List.length_append, List.countP_append]
  simp only [stepStatus, List.countP_cons, List.countP_nil, Event.isPlayStart,
    Bool.false_eq_true, if_false, Nat.add_zero, Nat.zero_add] at h1 ⊢
  rcases Bool.eq_false_or_eq_true (ExplainAll quote UpdatingExplainer body).failureOccurred
    with hf | hf <;>
    simp only [hf, if_true, Bool.false_eq_true, if_false, Bool.not_true, Bool.not_false,
      List.length_nil, List.length_singleton] at h1 ⊢ <;>
    omega

/-- Witness of C7 (amended): the two successful plays of the specification. -/
theorem status_lines_at_most_plays_witness :
    (statusLines (UpdatingExplainer.ExplainAll quotePlain
        ([Event.playbookStart 2, Event.playStart "Prep".toList, Event.taskStart "T1".toList,
          Event.runnerOK "h1".toList, Event.playStart "Main".toList,
          Event.taskStart "T2".toList, Event.runnerOK "h1".toList] ++
          [Event.playbookEnd])).out.bypass).length ≤
      max (([Event.playbookStart 2, Event.playStart "Prep".toList, Event.taskStart "T1".toList,
          Event.runnerOK "h1".toList, Event.playStart "Main".toList,
          Event.taskStart "T2".toList, Event.runnerOK "h1".toList] ++
          [Event.playbookEnd]).countP Event.isPlayStart) 1 :=
  status_lines_at_most_plays quotePlain _ (by decide)

/-- C1, as stated, fails. A failure in the first of two plays: play A gets the
error header and, at the next `PlayStart`, an OK line as well; play B gets no
line. An ignored failure in a single play: the play gets the error header, not
the OK line. -/
theorem playStart_status_counterexample :
    statusLines (UpdatingExplainer.ExplainAll quotePlain (playbookStream 2
        [("A".toList, [Event.taskStart "T".toList,
            Event.runnerFailed "h1".toList false RunnerResult.zero]),
         ("B".toList, [])])).out.bypass =
      [(StatusKind.errHeader, "1/2.... A".toList), (StatusKind.ok, "1/2.... A".toList)] ∧
    expectedStatusLines Event.isNonIgnoredFailure 2 1
        [("A".toList, [Event.taskStart "T".toList,
            Event.runnerFailed "h1".toList false RunnerResult.zero]),
         ("B".toList, [])] =
      [some (StatusKind.errHeader, "1/2.... A".toList), some (StatusKind.ok, "2/2.... B".toList)] ∧
    statusLines (UpdatingExplainer.ExplainAll quotePlain (playbookStream 1
        [("P".toList, [Event.taskStart "T".toList,
            Event.runnerFailed "h1".toList true RunnerResult.zero])])).out.bypass =
      [(StatusKind.errHeader, "1/1.... P".toList)] ∧
    expectedStatusLines Event.isNonIgnoredFailure 1 1
        [("P".toList, [Event.taskStart "T".toList,
            Event.runnerFailed "h1".toList true RunnerResult.zero])] =
      [some (StatusKind.ok, "1/1.... P".toList)] := by
  decide

/-- C1 (amended): take a stream `PlaybookStart(N)`, then `k >= 1` plays, then
one final `PlaybookEnd`, where every play is a `PlayStart` followed by events
other than `PlaybookStart`, `PlayStart` and `PlaybookEnd`, every play before
the last has a non-empty name and contains no `RunnerFailed` or
`RunnerItemFailed` event (ignored or not). On a fresh updating explainer each
`PlayStart` is matched by exactly one play-status line on the bypass channel,
in play order, with the text `rightPadToLen("j/N", ".", 7) + " " + name_j`: an
OK line for every play before the last; for the last play an OK line if it
contains no `RunnerFailed` or `RunnerItemFailed` event, and the error header
that opens the block of its first failure if it contains one. -/
theorem playStart_status_lines (N : Int) (plays : List (GoString × List Event))
    (last : GoString × List Event)
    (hplays : ∀ p ∈ plays, p.1 ≠ [] ∧ ∀ ev ∈ p.2, ev.isInPlay = true ∧ ev.isFailure = false)
    (hlast : ∀ ev ∈ last.2, ev.isInPlay = true) :
    (statusLines (UpdatingExplainer.ExplainAll quote
        (playbookStream N (plays ++ [last]))).out.bypass).map some =
      expectedStatusLines Event.isFailure N 1 (plays ++ [last]) := by
  have h := statusLines_plays quote N plays last hplays hlast
    (UpdatingExplainer.ExplainEvent quote (Event.playbookStart N)) rfl rfl
  have hs : playbookStream N (plays ++ [last]) =
      Event.playbookStart N :: (playsStream (plays ++ [last]) ++ [Event.playbookEnd]) := rfl
  rw [hs, ExplainAll_cons, h]
  simp [ExplainEvent, UpdatingExplainer, stepStatus, statusLines]

/-- Witness of C1 (amended): a successful play with an unreachable host, then a
last play with two failures. -/
theorem playStart_status_lines_witness :
    (statusLines (UpdatingExplainer.ExplainAll quotePlain
        (playbookStream 2 ([("Prep".toList, [Event.taskStart "T1".toList,
            Event.runnerOK "h1".toList, Event.runnerUnreachable "h2".toList])] ++
          [("Main".toList, [Event.taskStart "T2".toList,
            Event.runnerFailed "h1".toList false RunnerResult.zero,
            Event.runnerFailed "h3".toList true RunnerResult.zero])]))).out.bypass).map some =
      [some (StatusKind.ok, "1/2.... Prep".toList),
       some (StatusKind.errHeader, "2/2.... Main".toList)] :=
  (playStart_status_lines quotePlain 2 _ _ (by decide) (by decide)).trans (by decide)

/-- The block the first `RunnerFailed` of a single play puts on the bypass
channel, as print calls, for every `N`, play, task, host and result; the
`PlaybookEnd` adds nothing. -/
theorem runnerFailed_block (N : Int) (P T h : GoString) (r : RunnerResult) :
    (UpdatingExplainer.ExplainAll quote
        [Event.playbookStart N, Event.playStart P, Event.taskStart T,
         Event.runnerFailed h false r, Event.playbookEnd]).out.bypass.map some =
      [(statusTextOf 1 N P).map fun t =>
        Output.format
          ([Piece.pretty Severity.err t, Piece.plain ("- Task: ".toList ++ T ++ "\n".toList),
            Piece.pretty Severity.err ("  ".toList ++ h ++ ": ".toList ++ r.Message)] ++
            updatingExplainer.outputBlocks r)] := by
  have hs := statusText_eq ((UpdatingExplainer.ExplainEvent quote
    (Event.playbookStart N)).ExplainEvent quote (Event.playStart P))
  simp only [updatingExplainer.ExplainEvent, UpdatingExplainer, ne_eq, not_true_eq_false,
    if_false] at hs
  simp [updatingExplainer.ExplainAll, updatingExplainer.ExplainEvent, UpdatingExplainer,
    Writer.Write, Writer.Bypass, updatingExplainer.failureHeader, hs]
  rfl

/-- A format string without `%` is written as it is. -/
theorem sprintf0_of_no_percent (s : GoString) (h : '%' ∉ s) : sprintf0 s = some s := by
  induction s with
  | nil => rfl
  | cons c rest ih =>
    have hc : c ≠ '%' := fun hc => h (hc ▸ List.mem_cons_self _ _)
    have hrest : '%' ∉ rest := fun hr => h (List.mem_cons_of_mem _ hr)
    cases rest with
    | nil => simp [sprintf0, hc]
    | cons v rest2 => simp [sprintf0, hc, ih hrest]

/-- C3 at the failing input: the single-play stream with the message
`quota 100%used`. The explainer composes the header, the task line and the
host line with the message unchanged, and passes the composed text to
`fmt.Fprintf` as the format string: the bytes on the bypass channel (plain
styler) read `100%!u(MISSING)sed`, not `100%used`. -/
theorem runnerFailed_percent_message :
    (UpdatingExplainer.ExplainAll quotePlain
        [Event.playbookStart 1, Event.playStart "P".toList, Event.taskStart "T".toList,
         Event.runnerFailed "h1".toList false
           { RunnerResult.zero with Message := "quota 100%used".toList },
         Event.playbookEnd]).out.bypass =
      [Output.format
        [Piece.pretty Severity.err "1/1.... P".toList, Piece.plain "- Task: T\n".toList,
         Piece.pretty Severity.err "  h1: quota 100%used".toList]] ∧
    (UpdatingExplainer.ExplainAll quotePlain
        [Event.playbookStart 1, Event.playStart "P".toList, Event.taskStart "T".toList,
         Event.runnerFailed "h1".toList false
           { RunnerResult.zero with Message := "quota 100%used".toList },
         Event.playbookEnd]).out.bypass.map (renderWrite plainStyler) =
      [some "[ERR] 1/1.... P\n- Task: T\n[ERR]   h1: quota 100%!u(MISSING)sed\n".toList] := by
  decide

/-- C4, as stated, fails: after the ignored failure the `HandlerTaskStart`
writes no frame and the `PlaybookEnd` writes no OK line. The transient channel
holds the frames of `PlayStart` and `TaskStart` only, the bypass channel the
failure block only. -/
theorem ignored_failure_counterexample :
    (UpdatingExplainer.ExplainAll quotePlain
        [Event.playbookStart 1, Event.playStart "P".toList, Event.taskStart "T".toList,
         Event.runnerFailed "h1".toList true { RunnerResult.zero with Message := "boom".toList },
         Event.handlerTaskStart "HT".toList, Event.playbookEnd]).out =
      { frames :=
          [Output.print (Piece.plain "1/1.... P\n".toList),
           Output.bytes [Piece.plain "1/1.... P\n".toList, Piece.plain "- Task: T\n".toList]],
        bypass :=
          [Output.format
            [Piece.pretty Severity.err "1/1.... P".toList, Piece.plain "- Task: T\n".toList,
             Piece.pretty Severity.errorIgnored "  h1".toList]] } := by
  decide

/-- C4 (amended): in updating mode a `RunnerFailed` or `RunnerItemFailed` event
with `IgnoreErrors` true sets `failureOccurred` like any other failure. For
every play name, task, host, result and handler name, the stream
`PlaybookStart(1)`, `PlayStart(P)`, `TaskStart(T)`, `RunnerFailed(h, ignored)`,
`HandlerTaskStart(HT)`, `PlaybookEnd` on a fresh updating explainer leaves the
transient channel with the frames of `PlayStart` and `TaskStart` only (no
handler frame) and the bypass channel with the failure block only (error
header, task line, error-ignored host line, output blocks; no OK line), and
`failureOccurred` is true at the end. -/
theorem ignored_failure_sets_failed (e : updatingExplainer) (P T h HT : GoString)
    (r : RunnerResult) :
    (e.ExplainEvent quote (Event.runnerFailed h true r)).failureOccurred = true ∧
    (e.ExplainEvent quote (Event.runnerItemFailed h true r)).failureOccurred = true ∧
    (UpdatingExplainer.ExplainAll quote
        [Event.playbookStart 1, Event.playStart P, Event.taskStart T,
         Event.runnerFailed h true r, Event.handlerTaskStart HT, Event.playbookEnd]) =
      { out :=
          { frames :=
              [Output.print (Piece.plain ("1/1.... ".toList ++ P ++ "\n".toList)),
               Output.bytes [Piece.plain ("1/1.... ".toList ++ P ++ "\n".toList),
                 Piece.plain ("- Task: ".toList ++ T ++ "\n".toList)]],
            bypass :=
              [Output.format
                ([Piece.pretty Severity.err ("1/1.... ".toList ++ P),
                  Piece.plain ("- Task: ".toList ++ T ++ "\n".toList),
                  Piece.pretty Severity.errorIgnored ("  ".toList ++ h)] ++
                  updatingExplainer.outputBlocks r)] },
        playCount := 1, currentPlay := 1, currentPlayName := P, currentTask := T,
        failureOccurred := true } := by
  have hind : (rightPadToLen (sprintfCount 1 1) ['.'] 7).getD [] = "1/1....".toList := by
    decide
  refine ⟨rfl, rfl, ?_⟩
  simp [updatingExplainer.ExplainAll, updatingExplainer.ExplainEvent, UpdatingExplainer,
    Writer.Write, Writer.Bypass, updatingExplainer.headerLine, updatingExplainer.statusText,
    updatingExplainer.playCountIndicator, updatingExplainer.failureHeader, sprintln2, hind]

/-- C21: in updating mode the failure flag is monotone. From every state with
`failureOccurred` true and after every finite sequence of events of any kind,
the flag is still true; a `PlaybookEnd` then leaves the explainer as it is (no
OK line), and the block a `RunnerFailed` or `RunnerItemFailed` then puts on the
bypass channel opens with the host line (no error header), so that neither adds
a play-status line. -/
theorem failureOccurred_monotone (e : updatingExplainer) (evs : List Event)
    (h : e.failureOccurred = true) :
    (e.ExplainAll quote evs).failureOccurred = true ∧
      (e.ExplainAll quote evs).ExplainEvent quote Event.playbookEnd = e.ExplainAll quote evs ∧
      (∀ host ignoreErrors r,
        ((e.ExplainAll quote evs).ExplainEvent quote
            (Event.runnerFailed host ignoreErrors r)).out.bypass =
          (e.ExplainAll quote evs).out.bypass ++
            [Output.format
              ((if ignoreErrors then Piece.pretty Severity.errorIgnored ("  ".toList ++ host)
                else Piece.pretty Severity.err
                  ("  ".toList ++ host ++ ": ".toList ++ r.Message)) :: outputBlocks r)]) ∧
      (∀ host ignoreErrors r,
        ((e.ExplainAll quote evs).ExplainEvent quote
            (Event.runnerItemFailed host ignoreErrors r)).out.bypass =
          (e.ExplainAll quote evs).out.bypass ++
            [Output.format
              ((if ignoreErrors then
                  Piece.prettyf Severity.errorIgnored (itemMsg quote host r.Item)
                else Piece.pretty Severity.err
                  ("  ".toList ++ itemMsg quote host r.Item ++ ": ".toList ++ r.Message)) ::
                outputBlocks r)]) ∧
      (∀ ev, ev.isFailure = true ∨ ev = Event.playbookEnd →
        statusLines ((e.ExplainAll quote evs).ExplainEvent quote ev).out.bypass =
          statusLines (e.ExplainAll quote evs).out.bypass) := by
  have hf := failureOccurred_ExplainAll quote evs e h
  refine ⟨hf, ?_, ?_, ?_, ?_⟩
  · simp [ExplainEvent, hf]
  · intro host ignoreErrors r
    simp [ExplainEvent, failureHeader, hf, Writer.Bypass]
  · intro host ignoreErrors r
    simp [ExplainEvent, failureHeader, hf, Writer.Bypass]
  · intro ev hev
    rw [statusLines_ExplainEvent]
    rcases hev with hev | rfl
    · cases ev <;> simp_all [stepStatus, Event.isFailure]
    · simp [stepStatus, hf]

/-- Witness of C21: a failure in play A; after the `PlayStart` of play B, a
`TaskStart` and the `PlaybookEnd` the flag is still true. -/
theorem failureOccurred_monotone_witness :
    (UpdatingExplainer.ExplainAll quotePlain
        ([Event.playbookStart 2, Event.playStart "A".toList,
          Event.runnerFailed "h1".toList false RunnerResult.zero] ++
         [Event.playStart "B".toList, Event.taskStart "T".toList,
          Event.playbookEnd])).failureOccurred = true := by
  rw [ExplainAll_append]
  exact (failureOccurred_monotone quotePlain _ _ (by decide)).1

/-- C22: in updating mode a `RunnerUnreachable` event, in every state, puts two
prints on the bypass channel, the undecorated header line and the
unreachable-decorated `  <host>`, and leaves the transient channel and every
field, `failureOccurred` included, as they are. Hence the stream
`PlaybookStart(N)`, `PlayStart(P)`, events other than `PlaybookStart`,
`PlayStart`, `PlaybookEnd`, `RunnerFailed` and `RunnerItemFailed`,
`PlaybookEnd` on a fresh explainer ends with the OK line of play `P`,
`rightPadToLen("1/N", ".", 7) + " " + P`. -/
theorem runnerUnreachable_bypass (e : updatingExplainer) (host : GoString) (N : Int)
    (P : GoString) (body : List Event)
    (hbody : ∀ ev ∈ body, ev.isInPlay = true ∧ ev.isFailure = false) :
    e.ExplainEvent quote (Event.runnerUnreachable host) =
        { e with
          out :=
            { frames := e.out.frames,
              bypass := e.out.bypass ++
                [Output.print
                    (Piece.plain (e.playCountIndicator ++ ' ' :: e.currentPlayName ++ ['\n'])),
                 Output.print (Piece.pretty Severity.unreach ("  ".toList ++ host))] } } ∧
      ∃ t, statusTextOf 1 N P = some t ∧
        (UpdatingExplainer.ExplainAll quote (playbookStream N [(P, body)])).out.bypass =
          (UpdatingExplainer.ExplainAll quote
              (Event.playbookStart N :: Event.playStart P :: body)).out.bypass ++
            [Output.print (Piece.pretty Severity.ok t)] := by
  refine ⟨?_, ?_⟩
  · simp [ExplainEvent, Writer.Bypass, headerLine, sprintln2]
  · have hstream : playbookStream N [(P, body)] =
        (Event.playbookStart N :: Event.playStart P :: body) ++ [Event.playbookEnd] := by
      simp [playbookStream, playsStream]
    have hcons : UpdatingExplainer.ExplainAll quote
          (Event.playbookStart N :: Event.playStart P :: body) =
        ((UpdatingExplainer.ExplainEvent quote (Event.playbookStart N)).ExplainEvent quote
          (Event.playStart P)).ExplainAll quote body := rfl
    obtain ⟨b1, b2, b3, b4, -⟩ := ExplainAll_inPlay quote body
      ((UpdatingExplainer.ExplainEvent quote (Event.playbookStart N)).ExplainEvent quote
        (Event.playStart P)) (fun ev hev => (hbody ev hev).1)
    have hany := any_isFailure_eq_false body hbody
    have hs := statusText_eq (UpdatingExplainer.ExplainAll quote
      (Event.playbookStart N :: Event.playStart P :: body))
    rw [hcons] at hs ⊢
    rw [b1, b2, b3] at hs
    have hs2 : statusTextOf 1 N P = some (ExplainAll quote
        ((UpdatingExplainer.ExplainEvent quote (Event.playbookStart N)).ExplainEvent quote
          (Event.playStart P)) body).statusText := hs
    have hf : (ExplainAll quote
        ((UpdatingExplainer.ExplainEvent quote (Event.playbookStart N)).ExplainEvent quote
          (Event.playStart P)) body).failureOccurred = false := by
      rw [b4, hany]
      rfl
    refine ⟨_, hs2, ?_⟩
    rw [hstream, ExplainAll_append, hcons, ExplainAll_cons, ExplainAll_nil]
    generalize ExplainAll quote
      ((UpdatingExplainer.ExplainEvent quote (Event.playbookStart N)).ExplainEvent quote
        (Event.playStart P)) body = x at hf
    simp [ExplainEvent, hf, Writer.Bypass]

/-- Witness of C22: a play with one task whose host is unreachable. -/
theorem runnerUnreachable_bypass_witness :
    ∃ t, statusTextOf 1 1 "P".toList = some t ∧
      (UpdatingExplainer.ExplainAll quotePlain (playbookStream 1
          [("P".toList, [Event.taskStart "T".toList,
            Event.runnerUnreachable "h1".toList])])).out.bypass =
        (UpdatingExplainer.ExplainAll quotePlain
            (Event.playbookStart 1 :: Event.playStart "P".toList ::
              [Event.taskStart "T".toList, Event.runnerUnreachable "h1".toList])).out.bypass ++
          [Output.print (Piece.pretty Severity.ok t)] :=
  (runnerUnreachable_bypass quotePlain UpdatingExplainer "h1".toList 1 "P".toList
    [Event.taskStart "T".toList, Event.runnerUnreachable "h1".toList] (by decide)).2

end Streams

/-! ## The default explainer, the stream driver and the failure blocks -/

section DefaultExplainer

open updatingExplainer

variable (quote : GoString → GoString)

/-- C12: for every state of the `DefaultEventExplainer` and every
`RunnerItemRetry` event, `ExplainEvent` in verbose mode makes no print call,
returns the empty string (for every styler) and leaves the explainer as it
is. -/
theorem retry_is_silent (sty : Styler) (x : DefaultEventExplainer) (host : GoString)
    (r : RunnerResult) :
    x.ExplainEvent quote (Event.runnerItemRetry host r) true = (x, []) ∧
      x.ExplainString quote sty (Event.runnerItemRetry host r) true = (x, []) :=
  ⟨rfl, rfl⟩

/-- C17: in updating mode, in every state, a `RunnerOK`, `RunnerItemOK`,
`RunnerSkipped` or `RunnerItemRetry` event adds one frame to the transient
channel, leaves the bypass channel unchanged and leaves `playCount`,
`currentPlay`, `currentPlayName`, `currentTask` and `failureOccurred`
unchanged. -/
theorem runner_note_frame_only (e : updatingExplainer) (ev : Event)
    (h : ev.isRunnerNote = true) :
    (e.ExplainEvent quote ev).out.bypass = e.out.bypass ∧
      (∃ frame, (e.ExplainEvent quote ev).out.frames = e.out.frames ++ [frame]) ∧
      (e.ExplainEvent quote ev).playCount = e.playCount ∧
      (e.ExplainEvent quote ev).currentPlay = e.currentPlay ∧
      (e.ExplainEvent quote ev).currentPlayName = e.currentPlayName ∧
      (e.ExplainEvent quote ev).currentTask = e.currentTask ∧
      (e.ExplainEvent quote ev).failureOccurred = e.failureOccurred := by
  cases ev <;> simp_all [ExplainEvent, Event.isRunnerNote, Writer.Write]

/-- Witness of C17: a `RunnerOK` after the first failure of a play leaves the
bypass channel and the failure flag as they are. -/
theorem runner_note_frame_only_witness :
    ((UpdatingExplainer.ExplainAll quotePlain
          [Event.playbookStart 1, Event.playStart "P".toList, Event.taskStart "T".toList,
           Event.runnerFailed "h1".toList false RunnerResult.zero]).ExplainEvent quotePlain
        (Event.runnerOK "h2".toList)).out.bypass =
      (UpdatingExplainer.ExplainAll quotePlain
          [Event.playbookStart 1, Event.playStart "P".toList, Event.taskStart "T".toList,
           Event.runnerFailed "h1".toList false RunnerResult.zero]).out.bypass :=
  (runner_note_frame_only quotePlain _ (Event.runnerOK "h2".toList) rfl).1

theorem stdoutBlock_ne_stderrBlock (r r2 : RunnerResult) : stdoutBlock r ≠ stderrBlock r2 := by
  simp [stdoutBlock, stderrBlock]

theorem stdoutBlock_ne_closingRule (r : RunnerResult) : stdoutBlock r ≠ closingRule := by
  simp [stdoutBlock, closingRule]

theorem stderrBlock_ne_closingRule (r : RunnerResult) : stderrBlock r ≠ closingRule := by
  simp [stderrBlock, closingRule]

theorem outputBlocks_eq (r : RunnerResult) :
    outputBlocks r =
      (if r.Stdout ≠ [] then [stdoutBlock r] else []) ++
        (if r.Stderr ≠ [] then [stderrBlock r] else []) ++
        (if r.Stderr ≠ [] ∨ r.Stdout ≠ [] then [closingRule] else []) := rfl

/-- The three closing `if` statements give a block its output blocks, whatever
is printed before them, as long as that is no colour print. -/
theorem hasOutputBlocks_append (r : RunnerResult) (pre : List Piece)
    (hpre : ∀ p ∈ pre, ∀ c m, p ≠ Piece.color c m) :
    HasOutputBlocks r (pre ++ outputBlocks r) := by
  have h1 : stdoutBlock r ∉ pre := fun h => hpre _ h _ _ rfl
  have h2 : stderrBlock r ∉ pre := fun h => hpre _ h _ _ rfl
  have h3 : pre.getLast? ≠ some closingRule := by
    intro h
    exact hpre _ (List.mem_of_getLast?_eq_some h) _ _ rfl
  have e1 := stdoutBlock_ne_stderrBlock r r
  have e2 := stdoutBlock_ne_closingRule r
  have e3 := stderrBlock_ne_closingRule r
  unfold HasOutputBlocks
  rw [outputBlocks_eq]
  by_cases ho : r.Stdout = [] <;> by_cases he : r.Stderr = []
  · simp [ho, he, h1, h2, h3]
  · simp [ho, he, h1, h2, h3, e1, e2, e3, List.getLast?_append]
  · simp [ho, he, h1, h2, h3, e1, e2, e3, e1.symm, List.getLast?_append]
  · simp [ho, he, h1, h2, h3, e1, e2, e3, e1.symm, List.getLast?_append]
    exact List.infix_append' pre [stdoutBlock r, stderrBlock r] [closingRule]

/-- One verbose step that is no `PlayStart`: the play name and the footer flag
stay, the status flag is cleared by the events that break the header line. -/
theorem verbose_step_flags (x : DefaultEventExplainer) (ev : Event)
    (h : ev.isPlayStart = false) :
    (x.ExplainEvent quote ev true).1.lastPlay = x.lastPlay ∧
      (x.ExplainEvent quote ev true).1.printPlayMessage = x.printPlayMessage ∧
      (x.ExplainEvent quote ev true).1.printPlayStatus =
        (x.printPlayStatus && !ev.breaksStatusLine) := by
  cases ev <;>
    simp_all [DefaultEventExplainer.ExplainEvent, Event.isPlayStart, Event.breaksStatusLine,
      DefaultEventExplainer.breakStatusLine, DefaultEventExplainer.writePlayStatusVerbose] <;>
    split <;> simp_all

theorem verbose_step_count (x : DefaultEventExplainer) (ev : Event)
    (h : ev.isInPlay = true) :
    (x.ExplainEvent quote ev true).1.playCount = x.playCount ∧
      (x.ExplainEvent quote ev true).1.currentPlayCount = x.currentPlayCount := by
  cases ev <;>
    simp_all [DefaultEventExplainer.ExplainEvent, Event.isInPlay, Event.isPlayStart,
      Event.isPlaybookStart, Event.isPlaybookEnd,
      DefaultEventExplainer.breakStatusLine] <;>
    split <;> simp_all

theorem default_ExplainAll_cons (verbose : Bool) (x : DefaultEventExplainer)
    (ev : Event) (rest : List Event) :
    x.ExplainAll quote verbose (ev :: rest) =
      ((x.ExplainEvent quote ev verbose).1).ExplainAll quote verbose rest := rfl

theorem default_ExplainAll_append (verbose : Bool) (x : DefaultEventExplainer)
    (a b : List Event) :
    x.ExplainAll quote verbose (a ++ b) =
      (x.ExplainAll quote verbose a).ExplainAll quote verbose b := by
  simp [DefaultEventExplainer.ExplainAll, List.foldl_append]

/-- The flags after the verbose events of one play. -/
theorem verbose_flags (mid : List Event) (x : DefaultEventExplainer)
    (h : ∀ ev ∈ mid, ev.isPlayStart = false) :
    (x.ExplainAll quote true mid).lastPlay = x.lastPlay ∧
      (x.ExplainAll quote true mid).printPlayMessage = x.printPlayMessage ∧
      (x.ExplainAll quote true mid).printPlayStatus =
        (x.printPlayStatus && !mid.any Event.breaksStatusLine) := by
  induction mid generalizing x with
  | nil => simp [DefaultEventExplainer.ExplainAll]
  | cons ev rest ih =>
    obtain ⟨a1, a2, a3⟩ := verbose_step_flags quote x ev (h ev (List.mem_cons_self _ _))
    obtain ⟨b1, b2, b3⟩ := ih (x.ExplainEvent quote ev true).1
      (fun e he => h e (List.mem_cons_of_mem _ he))
    rw [default_ExplainAll_cons]
    refine ⟨b1.trans a1, b2.trans a2, ?_⟩
    rw [b3, a3, List.any_cons]
    rcases Bool.eq_false_or_eq_true x.printPlayStatus with h1 | h1 <;>
      rcases Bool.eq_false_or_eq_true ev.breaksStatusLine with h2 | h2 <;>
      simp [h1, h2]

/-- The play counters after the verbose events inside one play. -/
theorem verbose_count (mid : List Event) (x : DefaultEventExplainer)
    (h : ∀ ev ∈ mid, ev.isInPlay = true) :
    (x.ExplainAll quote true mid).getCount = x.getCount := by
  have key : (x.ExplainAll quote true mid).playCount = x.playCount ∧
      (x.ExplainAll quote true mid).currentPlayCount = x.currentPlayCount := by
    induction mid generalizing x with
    | nil => simp [DefaultEventExplainer.ExplainAll]
    | cons ev rest ih =>
      obtain ⟨a1, a2⟩ := verbose_step_count quote x ev (h ev (List.mem_cons_self _ _))
      obtain ⟨b1, b2⟩ := ih (x.ExplainEvent quote ev true).1
        (fun e he => h e (List.mem_cons_of_mem _ he))
      rw [default_ExplainAll_cons]
      exact ⟨b1.trans a1, b2.trans a2⟩
  simp [DefaultEventExplainer.getCount, key.1, key.2]

/-- C13: in verbose mode, take a `PlayStart(P)` followed by events `mid` none
of which is a `PlayStart`. At the `PlaybookEnd` or `PlayStart` that comes next
the explainer emits the footer of `writePlayStatusVerbose`: it is the blank
line followed by the green `P Finished With No Tasks` if and only if no event
of `mid` is a `TaskStart`, `HandlerTaskStart`, `RunnerFailed`,
`RunnerItemFailed` or `RunnerUnreachable`; otherwise it is the green
`<count>  P Finished`, where `<count>` is the play-count indicator of the
explainer at that moment. A `PlaybookEnd` emits the footer alone, a
`PlayStart(Q)` emits it before the header of `Q`. When `mid` holds no
`PlaybookStart` and no `PlaybookEnd` either, that indicator is the one printed
in the header of `P`. -/
theorem verbose_footer (x0 : DefaultEventExplainer) (P : GoString) (mid : List Event)
    (hmid : ∀ ev ∈ mid, ev.isPlayStart = false) :
    ((x0.ExplainAll quote true (Event.playStart P :: mid)).writePlayStatusVerbose.2 =
          [Piece.plain "\n".toList,
           Piece.color Color.green (P ++ " Finished With No Tasks\n".toList)] ↔
        mid.any Event.breaksStatusLine = false) ∧
      (mid.any Event.breaksStatusLine = true →
        (x0.ExplainAll quote true (Event.playStart P :: mid)).writePlayStatusVerbose.2 =
          [Piece.color Color.green
            ((x0.ExplainAll quote true (Event.playStart P :: mid)).getCount ++
              "  ".toList ++ P ++ " Finished\n".toList)]) ∧
      ((x0.ExplainAll quote true (Event.playStart P :: mid)).ExplainEvent quote
          Event.playbookEnd true).2 =
        (x0.ExplainAll quote true (Event.playStart P :: mid)).writePlayStatusVerbose.2 ∧
      (∀ Q,
        ((x0.ExplainAll quote true (Event.playStart P :: mid)).ExplainEvent quote
            (Event.playStart Q) true).2 =
          (x0.ExplainAll quote true (Event.playStart P :: mid)).writePlayStatusVerbose.2 ++
            [Piece.plain
              ((x0.ExplainAll quote true
                  (Event.playStart P :: mid)).writePlayStatusVerbose.1.getCount ++
                "  ".toList ++ Q)]) ∧
      ((∀ ev ∈ mid, ev.isInPlay = true) →
        (x0.ExplainAll quote true (Event.playStart P :: mid)).getCount =
            (x0.ExplainEvent quote (Event.playStart P) true).1.getCount ∧
          (x0.ExplainEvent quote (Event.playStart P) true).2.getLast? =
            some (Piece.plain ((x0.ExplainEvent quote (Event.playStart P) true).1.getCount ++
              "  ".toList ++ P))) := by
  rw [default_ExplainAll_cons]
  obtain ⟨a1, a2, a3⟩ := verbose_flags quote mid (x0.ExplainEvent quote (Event.playStart P) true).1
    hmid
  have s1 : (x0.ExplainEvent quote (Event.playStart P) true).1.lastPlay = P := rfl
  have s2 : (x0.ExplainEvent quote (Event.playStart P) true).1.printPlayMessage = true := rfl
  have s3 : (x0.ExplainEvent quote (Event.playStart P) true).1.printPlayStatus = true := rfl
  rw [s1] at a1
  rw [s2] at a2
  rw [s3, Bool.true_and] at a3
  refine ⟨?_, ?_, rfl, fun Q => rfl, fun hin => ⟨verbose_count quote mid _ hin, ?_⟩⟩
  · unfold DefaultEventExplainer.writePlayStatusVerbose
    rw [a1, a2, a3]
    rcases Bool.eq_false_or_eq_true (mid.any Event.breaksStatusLine) with h | h <;> simp [h]
  · intro h
    unfold DefaultEventExplainer.writePlayStatusVerbose
    rw [a1, a2, a3]
    simp [h]
  · simp [DefaultEventExplainer.ExplainEvent, DefaultEventExplainer.getCount]

/-- Witness of C13: a play `Prep` in which one host reports OK and no task
starts; the footer is the blank line and `Prep Finished With No Tasks`. -/
theorem verbose_footer_witness :
    ((DefaultEventExplainer.zero.ExplainEvent quotePlain (Event.playbookStart 2) true).1.ExplainAll
        quotePlain true
        (Event.playStart "Prep".toList :: [Event.runnerOK "h1".toList])).writePlayStatusVerbose.2 =
      [Piece.plain "\n".toList,
       Piece.color Color.green ("Prep".toList ++ " Finished With No Tasks\n".toList)] :=
  (verbose_footer quotePlain _ "Prep".toList [Event.runnerOK "h1".toList]
    (by decide)).1.mpr (by decide)

theorem quiet_step_status (x : DefaultEventExplainer) (ev : Event) :
    (x.ExplainEvent quote ev false).1.printPlayStatus =
      if ev.isPlayStart = true then true
      else if ev.isProblem = true then false
      else x.printPlayStatus := by
  cases ev <;>
    simp [DefaultEventExplainer.ExplainEvent, Event.isPlayStart, Event.isProblem,
      DefaultEventExplainer.breakStatusLine, DefaultEventExplainer.writePlayStatus]
  all_goals split <;> simp_all

theorem statusOwedAfter_snoc (pre : List Event) (ev : Event) :
    statusOwedAfter (pre ++ [ev]) =
      if ev.isPlayStart = true then true
      else if ev.isProblem = true then false
      else statusOwedAfter pre := by
  unfold statusOwedAfter lastDecisive
  rw [List.reverse_append, List.reverse_singleton, List.singleton_append, List.find?_cons]
  rcases Bool.eq_false_or_eq_true ev.isPlayStart with h1 | h1 <;>
    rcases Bool.eq_false_or_eq_true ev.isProblem with h2 | h2 <;>
    simp [h1, h2]

theorem quiet_printPlayStatus (pre : List Event) :
    (DefaultEventExplainer.zero.ExplainAll quote false pre).printPlayStatus =
      statusOwedAfter pre := by
  induction pre using List.reverseRecOn with
  | nil => rfl
  | append_singleton init ev ih =>
    rw [default_ExplainAll_append, statusOwedAfter_snoc, ← ih]
    exact quiet_step_status quote _ ev

/-- The flag `statusOwedAfter`, spelled out: the stream splits at a `PlayStart`
after which there is neither a `PlayStart` nor a problem event. -/
theorem statusOwedAfter_iff (pre : List Event) :
    statusOwedAfter pre = true ↔
      ∃ a name b, pre = a ++ Event.playStart name :: b ∧
        ∀ ev ∈ b, ev.isPlayStart = false ∧ ev.isProblem = false := by
  induction pre using List.reverseRecOn with
  | nil => simp [statusOwedAfter, lastDecisive]
  | append_singleton init ev ih =>
    rw [statusOwedAfter_snoc]
    have split_last : ∀ a name b, init ++ [ev] = a ++ Event.playStart name :: b →
        ev = Event.playStart name ∨
          ∃ b2, b = b2 ++ [ev] ∧ init = a ++ Event.playStart name :: b2 := by
      intro a name b h
      rcases List.eq_nil_or_concat b with hb | ⟨b2, y, hb⟩
      · subst hb
        have := List.append_inj' h rfl
        exact Or.inl (by simpa using this.2)
      · rw [List.concat_eq_append] at hb
        subst hb
        have h2 : init ++ [ev] = (a ++ Event.playStart name :: b2) ++ [y] := by
          simpa using h
        have := List.append_inj' h2 rfl
        have hy : ev = y := by simpa using this.2
        subst hy
        exact Or.inr ⟨b2, rfl, this.1⟩
    by_cases h1 : ev.isPlayStart = true
    · rw [if_pos h1]
      simp only [true_iff]
      cases ev <;> simp [Event.isPlayStart] at h1
      rename_i name
      exact ⟨init, name, [], rfl, by simp⟩
    · have h1f : ev.isPlayStart = false := by simpa using h1
      have notStart : ∀ name, ev ≠ Event.playStart name := by
        intro name he
        rw [he] at h1
        exact h1 rfl
      by_cases h2 : ev.isProblem = true
      · rw [if_neg h1, if_pos h2]
        simp only [Bool.false_eq_true, false_iff]
        rintro ⟨a, name, b, h, hb⟩
        rcases split_last a name b h with hev | ⟨b2, hb2, -⟩
        · exact notStart name hev
        · have := (hb ev (by rw [hb2]; simp)).2
          rw [h2] at this
          exact absurd this (by simp)
      · have h2f : ev.isProblem = false := by simpa using h2
        rw [if_neg h1, if_neg h2, ih]
        constructor
        · rintro ⟨a, name, b, hinit, hb⟩
          refine ⟨a, name, b ++ [ev], by simp [hinit], ?_⟩
          intro e he
          rcases List.mem_append.mp he with he | he
          · exact hb e he
          · rw [List.mem_singleton.mp he]
            exact ⟨h1f, h2f⟩
        · rintro ⟨a, name, b, h, hb⟩
          rcases split_last a name b h with hev | ⟨b2, hb2, hinit⟩
          · exact absurd hev (notStart name)
          · exact ⟨a, name, b2, hinit,
              fun e he => hb e (by rw [hb2]; exact List.mem_append_left _ he)⟩

/-- C14, as stated, fails: in verbose mode the output for a `RunnerFailed`
and for a `RunnerItemFailed` that follow `TaskStart(T)` is the host line alone;
it holds no `- Running task: T` and no `- Task: T` line. -/
theorem verbose_failure_task_line_counterexample :
    ((DefaultEventExplainer.zero.ExplainAll quotePlain true
        [Event.playbookStart 1, Event.playStart "P".toList,
         Event.taskStart "T".toList]).ExplainEvent quotePlain
        (Event.runnerFailed "h1".toList false
          { RunnerResult.zero with Message := "boom".toList }) true).2 =
      [Piece.pretty Severity.err "  h1 boom".toList] ∧
    ((DefaultEventExplainer.zero.ExplainAll quotePlain true
        [Event.playbookStart 1, Event.playStart "P".toList,
         Event.taskStart "T".toList]).ExplainEvent quotePlain
        (Event.runnerItemFailed "h1".toList false
          { RunnerResult.zero with Message := "boom".toList }) true).2 =
      [Piece.pretty Severity.err "    h1 boom".toList] := by
  decide

/-- C14 (amended): the task line of a failure is printed in non-verbose mode
only. For every state and every failure event, the non-verbose output is the
pending newline (if the status is pending), then `- Running task:
<currentTask>` for `RunnerFailed` and `- Task: <currentTask>` for
`RunnerItemFailed`, then the host line, then the output blocks. The verbose
output is the pending newline (if any), the host line and the output blocks,
without a task line. -/
theorem failure_task_line (x : DefaultEventExplainer) (host : GoString) (ignoreErrors : Bool)
    (r : RunnerResult) :
    (x.ExplainEvent quote (Event.runnerFailed host ignoreErrors r) false).2 =
        (if x.printPlayStatus then [Piece.plain "\n".toList] else []) ++
          Piece.plain ("- Running task: ".toList ++ x.currentTask ++ "\n".toList) ::
          (if ignoreErrors then Piece.pretty Severity.errorIgnored ("  ".toList ++ host)
            else Piece.pretty Severity.err ("  ".toList ++ host ++ " ".toList ++ r.Message)) ::
          outputBlocks r ∧
      (x.ExplainEvent quote (Event.runnerItemFailed host ignoreErrors r) false).2 =
        (if x.printPlayStatus then [Piece.plain "\n".toList] else []) ++
          Piece.plain ("- Task: ".toList ++ x.currentTask ++ "\n".toList) ::
          (if ignoreErrors then
              Piece.prettyf Severity.errorIgnored (itemMsg quote host r.Item)
            else Piece.pretty Severity.err
              ("  ".toList ++ itemMsg quote host r.Item ++ " ".toList ++ r.Message)) ::
          outputBlocks r ∧
      (x.ExplainEvent quote (Event.runnerFailed host ignoreErrors r) true).2 =
        (if x.printPlayStatus then [Piece.plain "\n".toList] else []) ++
          (if ignoreErrors then Piece.pretty Severity.errorIgnored ("  ".toList ++ host)
            else Piece.pretty Severity.err ("  ".toList ++ host ++ " ".toList ++ r.Message)) ::
          outputBlocks r ∧
      (x.ExplainEvent quote (Event.runnerItemFailed host ignoreErrors r) true).2 =
        (if x.printPlayStatus then [Piece.plain "\n".toList] else []) ++
          (if ignoreErrors then
              Piece.prettyf Severity.errorIgnored (itemMsg quote host r.Item)
            else Piece.pretty Severity.err
              ("  ".toList ++ itemMsg quote host r.Item ++ " ".toList ++ r.Message)) ::
          outputBlocks r := by
  refine ⟨?_, ?_, ?_, ?_⟩ <;>
    cases hp : x.printPlayStatus <;>
    simp [DefaultEventExplainer.ExplainEvent, DefaultEventExplainer.breakStatusLine, hp]

/-- C15 at the failing input, with the parts of the claim that hold. `TaskStart`
sets `currentTask` in the updating explainer, and `TaskStart` and
`HandlerTaskStart` set it in the `DefaultEventExplainer`, in any state and
either verbosity. The `HandlerTaskStart` branch of the updating explainer does
not: after `PlaybookStart(1)`, `PlayStart(P)`, `TaskStart(T)`,
`HandlerTaskStart(HT)`, with no failure, `currentTask` is still `T`, and the
frame of the next `RunnerOK(h1)` names the task `T`. -/
theorem currentTask_after_start (e : updatingExplainer) (x : DefaultEventExplainer)
    (name : GoString) (verbose : Bool) :
    (e.ExplainEvent quote (Event.taskStart name)).currentTask = name ∧
      (x.ExplainEvent quote (Event.taskStart name) verbose).1.currentTask = name ∧
      (x.ExplainEvent quote (Event.handlerTaskStart name) verbose).1.currentTask = name ∧
      (UpdatingExplainer.ExplainAll quotePlain
        [Event.playbookStart 1, Event.playStart "P".toList, Event.taskStart "T".toList,
         Event.handlerTaskStart "HT".toList]).failureOccurred = false ∧
      (UpdatingExplainer.ExplainAll quotePlain
        [Event.playbookStart 1, Event.playStart "P".toList, Event.taskStart "T".toList,
         Event.handlerTaskStart "HT".toList]).currentTask = "T".toList ∧
      (UpdatingExplainer.ExplainAll quotePlain
        [Event.playbookStart 1, Event.playStart "P".toList, Event.taskStart "T".toList,
         Event.handlerTaskStart "HT".toList, Event.runnerOK "h1".toList]).out.frames.getLast? =
        some (Output.bytes [Piece.plain "1/1.... P\n".toList,
          Piece.pretty Severity.ok "- h1 T".toList]) := by
  refine ⟨rfl, ?_, ?_, by decide, by decide, by decide⟩
  · cases verbose <;> rfl
  · cases verbose <;> rfl

/-- The loop of `Explain` keeps the verbosity and passes every event to the
event explainer, whatever the writes return. -/
theorem Explain_loop {ω σ : Type} (write : ω → GoString → ω × Option GoString)
    (explain : σ → Event → Bool → σ × GoString) (events : List Event)
    (e : AnsibleEventStreamExplainer ω σ) :
    (AnsibleEventStreamExplainer.Explain write explain e events).1.Verbose = e.Verbose ∧
      (AnsibleEventStreamExplainer.Explain write explain e events).1.EventExplainer =
        events.foldl (fun x event => (explain x event e.Verbose).1) e.EventExplainer := by
  unfold AnsibleEventStreamExplainer.Explain
  induction events generalizing e with
  | nil => exact ⟨rfl, rfl⟩
  | cons ev rest ih =>
    simp only [List.foldl_cons]
    split
    · have := ih { e with EventExplainer := (explain e.EventExplainer ev e.Verbose).1,
                          Out := (write e.Out (explain e.EventExplainer ev e.Verbose).2).1 }
      exact this
    · have := ih { e with EventExplainer := (explain e.EventExplainer ev e.Verbose).1 }
      exact this

/-- C16, as stated, fails: the write of the header of play `P` returns the
error `disk full`, and `Explain` returns `nil`. -/
theorem Explain_sink_error_counterexample :
    AnsibleEventStreamExplainer.writeErrors (failingWriter "disk full".toList)
        (DefaultEventExplainer.ExplainString quotePlain plainStyler)
        ⟨(), true, DefaultEventExplainer.zero⟩
        [Event.playbookStart 1, Event.playStart "P".toList] =
      [some "disk full".toList] ∧
    (AnsibleEventStreamExplainer.Explain (failingWriter "disk full".toList)
        (DefaultEventExplainer.ExplainString quotePlain plainStyler)
        ⟨(), true, DefaultEventExplainer.zero⟩
        [Event.playbookStart 1, Event.playStart "P".toList]).2 = none := by
  decide

/-- C16 (amended): `Explain` does not look at what its writes return. For
every writer, whatever errors its writes return, `Explain` passes every event
of the stream to the event explainer and, when the stream is exhausted,
returns `nil`. -/
theorem Explain_returns_nil {ω σ : Type} (write : ω → GoString → ω × Option GoString)
    (explain : σ → Event → Bool → σ × GoString) (e : AnsibleEventStreamExplainer ω σ)
    (events : List Event) :
    (AnsibleEventStreamExplainer.Explain write explain e events).2 = none ∧
      (AnsibleEventStreamExplainer.Explain write explain e events).1.EventExplainer =
        events.foldl (fun x event => (explain x event e.Verbose).1) e.EventExplainer :=
  ⟨rfl, (Explain_loop write explain events e).2⟩

theorem failureHeader_no_color (e : updatingExplainer) :
    ∀ p ∈ e.failureHeader, ∀ c m, p ≠ Piece.color c m := by
  intro p hp c m
  unfold failureHeader at hp
  split at hp <;> simp at hp
  rcases hp with rfl | rfl <;> simp

theorem breakStatusLine_no_color (x : DefaultEventExplainer) :
    ∀ p ∈ x.breakStatusLine.2, ∀ c m, p ≠ Piece.color c m := by
  intro p hp c m
  unfold DefaultEventExplainer.breakStatusLine at hp
  split at hp <;> simp at hp
  rw [hp]
  simp

/-- C18: for every `RunnerFailed` and `RunnerItemFailed` event, the failure
block the updating explainer composes (the buffer it passes to `fmt.Fprintf`)
and the one the `DefaultEventExplainer` returns, in either verbosity, hold the
red STDOUT block if and only if stdout is not empty, the red STDERR block if
and only if stderr is not empty, the STDOUT block right before the STDERR
block, and the red closing rule as the last print if and only if one of the
two is not empty. -/
theorem failure_block_output_blocks (e : updatingExplainer) (x : DefaultEventExplainer)
    (host : GoString) (ignoreErrors verbose : Bool) (r : RunnerResult) :
    (∃ buf, (e.ExplainEvent quote (Event.runnerFailed host ignoreErrors r)).out.bypass =
        e.out.bypass ++ [Output.format buf] ∧ HasOutputBlocks r buf) ∧
      (∃ buf, (e.ExplainEvent quote (Event.runnerItemFailed host ignoreErrors r)).out.bypass =
        e.out.bypass ++ [Output.format buf] ∧ HasOutputBlocks r buf) ∧
      HasOutputBlocks r (x.ExplainEvent quote (Event.runnerFailed host ignoreErrors r) verbose).2 ∧
      HasOutputBlocks r
        (x.ExplainEvent quote (Event.runnerItemFailed host ignoreErrors r) verbose).2 := by
  refine ⟨⟨_, rfl, ?_⟩, ⟨_, rfl, ?_⟩, ?_, ?_⟩
  · apply hasOutputBlocks_append
    intro p hp c m
    rcases List.mem_append.mp hp with hp | hp
    · exact failureHeader_no_color e p hp c m
    · rw [List.mem_singleton.mp hp]
      cases ignoreErrors <;> simp
  · apply hasOutputBlocks_append
    intro p hp c m
    rcases List.mem_append.mp hp with hp | hp
    · exact failureHeader_no_color e p hp c m
    · rw [List.mem_singleton.mp hp]
      cases ignoreErrors <;> simp
  · simp only [DefaultEventExplainer.ExplainEvent]
    apply hasOutputBlocks_append
    intro p hp c m
    rcases List.mem_append.mp hp with hp | hp
    · rcases List.mem_append.mp hp with hp | hp
      · exact breakStatusLine_no_color x p hp c m
      · cases verbose <;> simp at hp
        rw [hp]
        simp
    · rw [List.mem_singleton.mp hp]
      cases ignoreErrors <;> simp
  · simp only [DefaultEventExplainer.ExplainEvent]
    apply hasOutputBlocks_append
    intro p hp c m
    rcases List.mem_append.mp hp with hp | hp
    · rcases List.mem_append.mp hp with hp | hp
      · exact breakStatusLine_no_color x p hp c m
      · cases verbose <;> simp at hp
        rw [hp]
        simp
    · rw [List.mem_singleton.mp hp]
      cases ignoreErrors <;> simp

/-- C19 at the failing input: a `RunnerFailed` whose stdout is `sent 50%d`. The
block the explainer composes holds the text unchanged; its bytes (plain
styler) read `sent 50%d`. The bytes written to the bypass channel, after
`fmt.Fprintf` has taken the block for a format string, read
`sent 50%!d(MISSING)`. -/
theorem failure_block_percent :
    (UpdatingExplainer.ExplainAll quotePlain
        [Event.playbookStart 1, Event.playStart "P".toList, Event.taskStart "copy".toList,
         Event.runnerFailed "h1".toList false
           { RunnerResult.zero with Message := "rc 1".toList, Stdout := "sent 50%d".toList }
        ]).out.bypass =
      [Output.format
        [Piece.pretty Severity.err "1/1.... P".toList, Piece.plain "- Task: copy\n".toList,
         Piece.pretty Severity.err "  h1: rc 1".toList,
         Piece.color Color.red "---- STDOUT ----\nsent 50%d\n".toList,
         Piece.color Color.red "---------------\n".toList]] ∧
    renderBuf plainStyler
        [Piece.pretty Severity.err "1/1.... P".toList, Piece.plain "- Task: copy\n".toList,
         Piece.pretty Severity.err "  h1: rc 1".toList,
         Piece.color Color.red "---- STDOUT ----\nsent 50%d\n".toList,
         Piece.color Color.red "---------------\n".toList] =
      some ("[ERR] 1/1.... P\n- Task: copy\n[ERR]   h1: rc 1\n" ++
        "---- STDOUT ----\nsent 50%d\n---------------\n").toList ∧
    renderWrite plainStyler (Output.format
        [Piece.pretty Severity.err "1/1.... P".toList, Piece.plain "- Task: copy\n".toList,
         Piece.pretty Severity.err "  h1: rc 1".toList,
         Piece.color Color.red "---- STDOUT ----\nsent 50%d\n".toList,
         Piece.color Color.red "---------------\n".toList]) =
      some ("[ERR] 1/1.... P\n- Task: copy\n[ERR]   h1: rc 1\n" ++
        "---- STDOUT ----\nsent 50%!d(MISSING)\n---------------\n").toList := by
  decide

/-- C20: in non-verbose mode, on a stream `pre` processed from the zero
explainer, the output for a `PlaybookEnd` or a `PlayStart` holds the OK status
(`PrintOkln`) if and only if `pre` holds a `PlayStart` after which it holds no
`PlayStart`, `RunnerFailed`, `RunnerItemFailed` or `RunnerUnreachable`. The
first `PlayStart` on the zero explainer prints no status, and `TaskStart`,
`HandlerTaskStart`, `RunnerOK`, `RunnerItemOK`, `RunnerSkipped` and
`RunnerItemRetry` leave the pending status as it is. -/
theorem quiet_play_status (pre : List Event) :
    (Piece.okln ∈ ((DefaultEventExplainer.zero.ExplainAll quote false pre).ExplainEvent quote
          Event.playbookEnd false).2 ↔
        ∃ a name b, pre = a ++ Event.playStart name :: b ∧
          ∀ ev ∈ b, ev.isPlayStart = false ∧ ev.isProblem = false) ∧
      (∀ Q, Piece.okln ∈ ((DefaultEventExplainer.zero.ExplainAll quote false pre).ExplainEvent
            quote (Event.playStart Q) false).2 ↔
        ∃ a name b, pre = a ++ Event.playStart name :: b ∧
          ∀ ev ∈ b, ev.isPlayStart = false ∧ ev.isProblem = false) ∧
      (∀ Q, Piece.okln ∉ (DefaultEventExplainer.zero.ExplainEvent quote
          (Event.playStart Q) false).2) ∧
      (∀ (x : DefaultEventExplainer) (ev : Event), ev.isProgress = true →
        (x.ExplainEvent quote ev false).1.printPlayStatus = x.printPlayStatus) := by
  have hs := quiet_printPlayStatus quote pre
  refine ⟨?_, fun Q => ?_, fun Q => ?_, fun x ev hev => ?_⟩
  · rw [← statusOwedAfter_iff, ← hs]
    simp [DefaultEventExplainer.ExplainEvent, DefaultEventExplainer.writePlayStatus]
  · rw [← statusOwedAfter_iff, ← hs]
    simp [DefaultEventExplainer.ExplainEvent, DefaultEventExplainer.writePlayStatus]
  · simp [DefaultEventExplainer.ExplainEvent, DefaultEventExplainer.writePlayStatus,
      DefaultEventExplainer.zero]
  · rw [quiet_step_status]
    cases ev <;> simp_all [Event.isProgress, Event.isPlayStart, Event.isProblem]

/-- Witness of C20: after `PlaybookStart(2)`, `PlayStart(A)`, `TaskStart(T)`,
`RunnerOK(h1)` the output for `PlayStart(B)` holds the OK status. -/
theorem quiet_play_status_witness :
    Piece.okln ∈ ((DefaultEventExplainer.zero.ExplainAll quotePlain false
        ([Event.playbookStart 2] ++ Event.playStart "A".toList ::
          [Event.taskStart "T".toList, Event.runnerOK "h1".toList])).ExplainEvent quotePlain
        (Event.playStart "B".toList) false).2 :=
  ((quiet_play_status quotePlain _).2.1 "B".toList).mpr ⟨_, _, _, rfl, by decide⟩

/-- Witness of C18: a `RunnerFailed` with stdout `out` and no stderr, verbose,
on the zero explainer; the returned block holds the red STDOUT block. -/
theorem failure_block_output_blocks_witness :
    stdoutBlock { RunnerResult.zero with Stdout := "out".toList } ∈
      (DefaultEventExplainer.zero.ExplainEvent quotePlain
        (Event.runnerFailed "h1".toList false
          { RunnerResult.zero with Stdout := "out".toList }) true).2 :=
  (failure_block_output_blocks quotePlain UpdatingExplainer DefaultEventExplainer.zero
    "h1".toList false true { RunnerResult.zero with Stdout := "out".toList }).2.2.1.1.mpr
    (by decide)

end DefaultExplainer

/-! ## The package check -/

/-- C10: when `IsInstalled` and `IsAvailable` return no error, the boolean
`Check` returns is `installed || (!InstallationDisabled && available)`. -/
theorem PackageCheck_Check_bool (c : PackageCheck)
    (hi : (c.PackageManager.IsInstalled c.PackageQuery).2 = none)
    (ha : (c.PackageManager.IsAvailable c.PackageQuery).2 = none) :
    c.Check.1 =
      ((c.PackageManager.IsInstalled c.PackageQuery).1 ||
        (!c.InstallationDisabled && (c.PackageManager.IsAvailable c.PackageQuery).1)) := by
  unfold PackageCheck.Check
  rcases hI : c.PackageManager.IsInstalled c.PackageQuery with ⟨installed, ei⟩
  rcases hA : c.PackageManager.IsAvailable c.PackageQuery with ⟨available, ea⟩
  rw [hI] at hi
  rw [hA] at ha
  simp only at hi ha
  subst hi
  subst ha
  cases installed <;> cases hd : c.InstallationDisabled <;> simp

/-- Witness of C10: the package is not installed, it is available and
installation is allowed; `Check` returns true. -/
theorem PackageCheck_Check_bool_witness :
    (PackageCheck.mk ⟨"somePkg".toList, "someVersion".toList⟩
        (stubPkgManager false true) false).Check.1 = (false || (!false && true)) :=
  PackageCheck_Check_bool
    (PackageCheck.mk ⟨"somePkg".toList, "someVersion".toList⟩ (stubPkgManager false true) false)
    rfl rfl

/-- C11: when `IsInstalled` and `IsAvailable` return no error, `Check` returns
an error if and only if the package is not installed and installation is
disabled; when it returns an error the boolean is false, and in every other
case the error is `nil`. -/
theorem PackageCheck_Check_error (c : PackageCheck)
    (hi : (c.PackageManager.IsInstalled c.PackageQuery).2 = none)
    (ha : (c.PackageManager.IsAvailable c.PackageQuery).2 = none) :
    (c.Check.2 ≠ none ↔
        (c.PackageManager.IsInstalled c.PackageQuery).1 = false ∧
          c.InstallationDisabled = true) ∧
      (c.Check.2 ≠ none → c.Check.1 = false) := by
  unfold PackageCheck.Check
  rcases hI : c.PackageManager.IsInstalled c.PackageQuery with ⟨installed, ei⟩
  rcases hA : c.PackageManager.IsAvailable c.PackageQuery with ⟨available, ea⟩
  rw [hI] at hi
  rw [hA] at ha
  simp only at hi ha
  subst hi
  subst ha
  cases installed <;> cases hd : c.InstallationDisabled <;> simp

/-- Witness of C11: the package is not installed and installation is disabled
(row 5 of the test table); `Check` returns an error and false. -/
theorem PackageCheck_Check_error_witness :
    (PackageCheck.mk ⟨"somePkg".toList, "someVersion".toList⟩
        (stubPkgManager false true) true).Check.2 ≠ none ∧
      (PackageCheck.mk ⟨"somePkg".toList, "someVersion".toList⟩
        (stubPkgManager false true) true).Check.1 = false :=
  ⟨(PackageCheck_Check_error
      (PackageCheck.mk ⟨"somePkg".toList, "someVersion".toList⟩ (stubPkgManager false true)
        true) rfl rfl).1.mpr ⟨rfl, rfl⟩,
   (PackageCheck_Check_error
      (PackageCheck.mk ⟨"somePkg".toList, "someVersion".toList⟩ (stubPkgManager false true)
        true) rfl rfl).2
     ((PackageCheck_Check_error
      (PackageCheck.mk ⟨"somePkg".toList, "someVersion".toList⟩ (stubPkgManager false true)
        true) rfl rfl).1.mpr ⟨rfl, rfl⟩)⟩

end Kismatic
